import Mathlib

/-
Verification development for the `object` Go package (the `Assign` value
assignment engine).

The repository ships two variants of the engine, which agree on the data
model and on most behaviour but differ in a few bookkeeping details:
  * variant 1 (`src/assign.go`): after dispatch, the target path is recorded
    in `Metadata.Keys` whenever the handler did not signal "do not record",
    regardless of whether the handler returned an error; on a configured
    skip key it records the source path in `Metadata.Unused` and the target
    path in `Metadata.Unset`.
  * variant 2 (`src/unnamed/part_000`): the target path is recorded in
    `Metadata.Keys` only when the handler returned no error; a configured
    skip key is skipped silently, with no metadata records.
Both variants are embedded below, selected by an `Impl` parameter.

Modelling conventions (each is noted again at the definition it concerns):
  * Go's `reflect.Value` universe is embedded as the inductive `GoVal`.
    Nil-able shapes (map, pointer, slice, array, function) carry a
    prototype value `z` standing for the declared element type; the
    convention is that `z` is the zero value of that type, so `reflect.New`
    and `reflect.MakeSlice` produce `z` / lists of `z` directly.
  * Machine integers are `Int`/`Nat` with explicit wrapping modulo 2^64 at
    the points where Go converts (`uint64(i)`, `int64(u)`).  The engine's
    own `getKind` collapses all integer widths to one kind, and the model
    mirrors that by having a single `vint`/`vuint`/`vfloat` width.
  * Floating point sources are restricted to integral values (`vfloat
    (x : Int)`): every claim about floats in this repository concerns only
    sign checks and truncation of integral test values.  Go's conversion of
    a negative float to an unsigned integer is implementation-defined; the
    model uses the two's-complement wrap that the amd64 implementation
    (and the package documentation: "negative numbers to overflowed uint
    values") produces.
  * Map keys are restricted to strings.  Every map exercised by the
    package's own tests and documentation is `map[string]T` or
    `map[any]T` with string keys, and no claim concerns non-string keys.
  * Interface ("any") slots appear as `viface`.  At the `source any`
    boundary of variant 1 interface values are transparently unwrapped by
    Go itself; variant 2 unwraps explicitly after the nil checks.  The
    model keeps both orders.
  * `Metadata` is append-only and write-only during a traversal, so the
    model returns each call's metadata *delta* and concatenates deltas in
    call order, which yields exactly the slices the Go code appends to.
  * Error message strings keep the `fmt.Errorf` skeletons but print type
    names as bare kind names and omit the `%v`-rendered source value;
    no claim depends on message text.
-/

namespace ObjectSpec

/-- Which of the two shipped implementation variants is being run:
`v1` is `src/assign.go`, `v2` is `src/unnamed/part_000`. -/
inductive Impl where
  | v1
  | v2
deriving DecidableEq, Repr

/-- A struct field declaration: name, exportedness, anonymous (embedded)
marker, and the field tag already split on commas (Go's
`strings.Split(tag, ",")`; an absent tag is `[""]`, matching Go where
splitting the empty string yields one empty piece). -/
structure FieldDecl where
  name : String
  exported : Bool := true
  anonymous : Bool := false
  tag : List String := [""]
deriving DecidableEq, Repr

/-- The value universe of the engine, mirroring the `reflect.Value`s the Go
code dispatches on.  `vnil` is the invalid/nil value.  The `z` arguments of
`vmap`/`vptr`/`vslice`/`varray`/`vfunc` are zero-value prototypes standing
for the declared element type (see the header comment). -/
inductive GoVal where
  | vnil
  | vbool (b : Bool)
  | vint (n : Int)
  | vuint (n : Nat)
  | vfloat (x : Int)
  | vstring (s : String)
  | vstruct (decls : List FieldDecl) (vals : List GoVal)
  | vmap (z : GoVal) (entries : Option (List (String × GoVal)))
  | vptr (z : GoVal) (p : Option GoVal)
  | vslice (z : GoVal) (xs : Option (List GoVal))
  | varray (z : GoVal) (xs : List GoVal)
  | viface (v : Option GoVal)
  | vfunc (sig : Nat) (f : Option Nat)
deriving Repr

/-- Kind names as printed in the engine's error messages. -/
def kindName : GoVal → String
  | .vnil => "invalid"
  | .vbool _ => "bool"
  | .vint _ => "int"
  | .vuint _ => "uint"
  | .vfloat _ => "float64"
  | .vstring _ => "string"
  | .vstruct _ _ => "struct"
  | .vmap _ _ => "map"
  | .vptr _ _ => "ptr"
  | .vslice _ _ => "slice"
  | .varray _ _ => "array"
  | .viface _ => "interface"
  | .vfunc _ _ => "func"

/-- Go's `uint64(i)` conversion of a signed 64-bit value: two's-complement
wrap modulo 2^64. -/
def wrapToUint64 (i : Int) : Nat := (i.emod (2 ^ 64)).toNat

/-- Go's `int64(u)` conversion: wrap modulo 2^64 into the signed range. -/
def wrapToInt64 (i : Int) : Int :=
  let m := i.emod (2 ^ 64)
  if m < 2 ^ 63 then m else m - 2 ^ 64

/-- The `Metadata` sink: three ordered lists of path strings.  The model
threads metadata as per-call deltas that callers concatenate in call order,
which reproduces exactly the append-only slices of the Go code. -/
structure Meta where
  keys : List String := []
  unused : List String := []
  unset : List String := []
deriving DecidableEq, Repr

/-- The empty metadata delta. -/
def emptyMeta : Meta := {}

/-- Concatenation of two metadata deltas, in order. -/
def mergeMeta (a b : Meta) : Meta :=
  ⟨a.keys ++ b.keys, a.unused ++ b.unused, a.unset ++ b.unset⟩

/-- Modelled from the spec: the default naming converter (`toLowerCamel`,
declared outside the provided sources) turns a declared field name into its
lower-camel-case external form; the model lowers the first character, which
is all the claims rely on ("lower-camel-case of the declared field name"). -/
def toLowerCamel (s : String) : String :=
  match s.data with
  | [] => ""
  | c :: cs => String.mk (c.toLower :: cs)

/-- `AssignConfig`.  The tag name (`TagName`) does not appear because field
tags enter the model already extracted and comma-split (see `FieldDecl`);
`Metadata` presence is the flag `hasMetadata` (the sink itself is the
threaded `Meta` delta). -/
structure AssignConfig where
  WeaklyTypedInput : Bool := false
  IncludeIgnoreFields : Bool := false
  Converter : String → String := toLowerCamel
  hasMetadata : Bool := false
  SkipKeys : List String := []
  SkipSameValues : Bool := false

/-- The internal `weakAssigner`'s configuration: weak typing on, no
metadata sink, no skip keys. -/
def weakCfg : AssignConfig := { WeaklyTypedInput := true }

/-- `parseTag`: the first comma piece is the external name (empty tag means
converter-derived; `-` means skip unless `IncludeIgnoreFields`), and any
piece equal to `omitempty` sets the omit-empty flag.  Result is
`(actualName, omitempty, skip)`. -/
def parseTag (cfg : AssignConfig) (fd : FieldDecl) : String × Bool × Bool :=
  let pieces := fd.tag
  let omitempty := pieces.contains "omitempty"
  match pieces with
  | [] => (cfg.Converter fd.name, omitempty, false)
  | p0 :: _ =>
    if p0 == "" then (cfg.Converter fd.name, omitempty, false)
    else if p0 == "-" then
      if cfg.IncludeIgnoreFields then (cfg.Converter fd.name, omitempty, false)
      else ("", omitempty, true)
    else (p0, omitempty, false)

/-- The parent kinds that matter to `genFullKey`. -/
inductive PKind where
  | invalid
  | strct
  | map
  | slice
  | array
deriving DecidableEq, Repr

/-- `genFullKey`: child-of-map/sequence uses brackets, child-of-record uses
a dot; empty parts collapse. -/
def genFullKey (parentKind : PKind) (parentFull keyName : String) : String :=
  if parentKind = .invalid then keyName
  else if parentFull = "" then keyName
  else if keyName = "" then parentFull
  else
    match parentKind with
    | .map | .array | .slice => parentFull ++ "[" ++ keyName ++ "]"
    | _ => parentFull ++ "." ++ keyName

/-- `metaKey.newChild` / `kkk.newChild`. -/
def newChild (k : String) (kind : PKind) (name : String) : String :=
  genFullKey kind k name

/-- `addMetaKey`: no-op without a metadata sink or on the empty path. -/
def addMetaKey (cfg : AssignConfig) (m : Meta) (tk : String) : Meta :=
  if cfg.hasMetadata then
    if tk == "" then m else { m with keys := m.keys ++ [tk] }
  else m

/-- `addMetaUnused`. -/
def addMetaUnused (cfg : AssignConfig) (m : Meta) (sk : String) : Meta :=
  if cfg.hasMetadata then
    if sk == "" then m else { m with unused := m.unused ++ [sk] }
  else m

/-- `addMetaUnset`. -/
def addMetaUnset (cfg : AssignConfig) (m : Meta) (tk : String) : Meta :=
  if cfg.hasMetadata then
    if tk == "" then m else { m with unset := m.unset ++ [tk] }
  else m

/-- `shouldSkipKey`: empty paths never match; on a match variant 1 records
the source path as unused and the target path as unset, variant 2 records
nothing.  Returns the skip decision and the metadata delta. -/
def shouldSkipKey (impl : Impl) (cfg : AssignConfig) (tk sk : String) :
    Bool × Meta :=
  if tk == "" || sk == "" then (false, emptyMeta)
  else if cfg.SkipKeys.contains tk || cfg.SkipKeys.contains sk then
    match impl with
    | .v1 => (true, addMetaUnset cfg (addMetaUnused cfg emptyMeta sk) tk)
    | .v2 => (true, emptyMeta)
  else (false, emptyMeta)

/-- `reflect.Value.IsZero` (variant 1) and the equivalent hand-rolled
`isZeroValue` (variant 2). -/
def isZeroVal : GoVal → Bool
  | .vnil => true
  | .vbool b => !b
  | .vint n => n == 0
  | .vuint n => n == 0
  | .vfloat x => x == 0
  | .vstring s => s == ""
  | .vstruct _ vals => vals.attach.all (fun x => isZeroVal x.1)
  | .vmap _ e => e.isNone
  | .vptr _ p => p.isNone
  | .vslice _ s => s.isNone
  | .varray _ xs => xs.attach.all (fun x => isZeroVal x.1)
  | .viface v => v.isNone
  | .vfunc _ f => f.isNone
termination_by v => sizeOf v
decreasing_by
  · have h1 := List.sizeOf_lt_of_mem x.2
    simp only [GoVal.vstruct.sizeOf_spec]
    omega
  · have h1 := List.sizeOf_lt_of_mem x.2
    simp only [GoVal.varray.sizeOf_spec]
    omega

/-- `isEmptyValue` (the omit-empty test used when writing a record into a
map): length-based for collections, nil test for pointers/interfaces; a
nil map or slice has Go length 0. -/
def isEmptyValue : GoVal → Bool
  | .varray _ xs => xs.isEmpty
  | .vmap _ e => (e.getD []).isEmpty
  | .vslice _ s => (s.getD []).isEmpty
  | .vstring s => s.isEmpty
  | .vbool b => !b
  | .vint n => n == 0
  | .vuint n => n == 0
  | .vfloat x => x == 0
  | .viface v => v.isNone
  | .vptr _ p => p.isNone
  | _ => false

/-- `reflect.DeepEqual` on the embedded universe: structural equality,
with nil and empty collections distinct. -/
def deepEqual : GoVal → GoVal → Bool
  | .vnil, .vnil => true
  | .vbool a, .vbool b => a == b
  | .vint a, .vint b => a == b
  | .vuint a, .vuint b => a == b
  | .vfloat a, .vfloat b => a == b
  | .vstring a, .vstring b => a == b
  | .vstruct d v, .vstruct d' v' =>
      d == d' && v.length == v'.length
        && (v.zip v').attach.all (fun p => deepEqual p.1.1 p.1.2)
  | .vmap z none, .vmap z' none => deepEqual z z'
  | .vmap z (some e), .vmap z' (some e') =>
      deepEqual z z' && e.length == e'.length
        && (e.zip e').attach.all
            (fun p => p.1.1.1 == p.1.2.1 && deepEqual p.1.1.2 p.1.2.2)
  | .vptr z none, .vptr z' none => deepEqual z z'
  | .vptr z (some w), .vptr z' (some w') => deepEqual z z' && deepEqual w w'
  | .vslice z none, .vslice z' none => deepEqual z z'
  | .vslice z (some xs), .vslice z' (some xs') =>
      deepEqual z z' && xs.length == xs'.length
        && (xs.zip xs').attach.all (fun p => deepEqual p.1.1 p.1.2)
  | .varray z xs, .varray z' xs' =>
      deepEqual z z' && xs.length == xs'.length
        && (xs.zip xs').attach.all (fun p => deepEqual p.1.1 p.1.2)
  | .viface none, .viface none => true
  | .viface (some w), .viface (some w') => deepEqual w w'
  | .vfunc s f, .vfunc s' f' => s == s' && f == f'
  | _, _ => false
termination_by a _ => sizeOf a
decreasing_by
  all_goals
    first
    | (obtain ⟨⟨⟨pk, px⟩, py⟩, hmem⟩ := p
       have h1 := List.sizeOf_lt_of_mem (List.of_mem_zip hmem).1
       simp only [GoVal.vmap.sizeOf_spec, Option.some.sizeOf_spec,
         Prod.mk.sizeOf_spec] at h1 ⊢
       omega)
    | (obtain ⟨⟨px, py⟩, hmem⟩ := p
       have h1 := List.sizeOf_lt_of_mem (List.of_mem_zip hmem).1
       simp only [GoVal.vstruct.sizeOf_spec, GoVal.vslice.sizeOf_spec,
         GoVal.varray.sizeOf_spec, Option.some.sizeOf_spec]
       omega)
    | (simp only [GoVal.vmap.sizeOf_spec, GoVal.vptr.sizeOf_spec,
        GoVal.vslice.sizeOf_spec, GoVal.varray.sizeOf_spec,
        GoVal.viface.sizeOf_spec, Option.some.sizeOf_spec]
       omega)

/-- Type identity on the shape level (`reflect.Type` equality /
assignability for non-interface types): kinds and element prototypes must
agree; struct types agree when their declarations agree. -/
def sameShape : GoVal → GoVal → Bool
  | .vnil, .vnil => true
  | .vbool _, .vbool _ => true
  | .vint _, .vint _ => true
  | .vuint _, .vuint _ => true
  | .vfloat _, .vfloat _ => true
  | .vstring _, .vstring _ => true
  | .vstruct d _, .vstruct d' _ => d == d'
  | .vmap z _, .vmap z' _ => sameShape z z'
  | .vptr z _, .vptr z' _ => sameShape z z'
  | .vslice z _, .vslice z' _ => sameShape z z'
  | .varray z xs, .varray z' xs' => xs.length == xs'.length && sameShape z z'
  | .viface _, .viface _ => true
  | .vfunc s _, .vfunc s' _ => s == s'
  | _, _ => false

/-- `AssignableTo`: everything is assignable to the empty interface, and
otherwise assignability is type identity. -/
def assignableTo (v proto : GoVal) : Bool :=
  match proto with
  | .viface _ => true
  | _ => sameShape v proto

/-- One step of a field path inside a live target value: a struct field by
declaration index, or a pointer dereference. -/
inductive PathStep where
  | fld (i : Nat)
  | deref
deriving DecidableEq, Repr

/-- A path to a slot inside the target root value.  Go holds live
`reflect.Value` slots into the target; the model addresses the same slots
by path so that writes through them mutate the threaded root. -/
abbrev FieldPath := List PathStep

/-- Read the value at a path (`none` on a non-existent slot). -/
def getPath : FieldPath → GoVal → Option GoVal
  | [], v => some v
  | .fld i :: p, .vstruct _ vs =>
      match vs.get? i with
      | some w => getPath p w
      | none => none
  | .deref :: p, .vptr _ (some w) => getPath p w
  | _, _ => none

/-- Write a value at a path (identity on a non-existent slot). -/
def setPath : FieldPath → GoVal → GoVal → GoVal
  | [], _, nv => nv
  | .fld i :: p, .vstruct d vs, nv =>
      match vs.get? i with
      | some w => .vstruct d (vs.set i (setPath p w nv))
      | none => .vstruct d vs
  | .deref :: p, .vptr z (some w), nv => .vptr z (some (setPath p w nv))
  | _, v, _ => v

/-- Where a flattened field lives: a live (settable) slot inside the target
root, or a detached value (source-side flattening, and the fresh zero
record Go builds for a nil, non-settable embedded pointer). -/
inductive FLoc where
  | inRoot (p : FieldPath)
  | det (v : GoVal)

/-- Read a field location relative to the root value. -/
def readLoc (root : GoVal) : FLoc → GoVal
  | .inRoot p => (getPath p root).getD .vnil
  | .det v => v

/-- Write through a field location; a detached location is not settable,
so the root is unchanged. -/
def writeLoc (root : GoVal) : FLoc → GoVal → GoVal
  | .inRoot p, nv => setPath p root nv
  | .det _, _ => root

/-- `fieldInfo`: one flattened field's display (declared) name, external
name, omit-empty flag, declaration, and live location. -/
structure FInfo where
  displayName : String
  actualName : String
  omitempty : Bool
  decl : FieldDecl
  loc : FLoc

/-- `CanSet` of a flattened field: live slots in the (addressable) target
root are settable, detached values are not. -/
def FInfo.canSet (f : FInfo) : Bool :=
  match f.loc with
  | .inRoot _ => true
  | .det _ => false

/-- The location of field `i` of the struct at location `q`; `fv` is that
field's current value (used for the detached side). -/
def childLoc (q : FLoc) (i : Nat) (fv : GoVal) : FLoc :=
  match q with
  | .inRoot p => .inRoot (p ++ [.fld i])
  | .det _ => .det fv

/-- Lookup in an association list with string keys (Go map indexing on the
model's string-keyed maps). -/
def alookup {α : Type} : List (String × α) → String → Option α
  | [], _ => none
  | (k', v) :: rest, k => if k' == k then some v else alookup rest k

/-- `SetMapIndex` on the association-list model: replace the first binding
of the key in place or append a new binding. -/
def mapUpsert : List (String × GoVal) → String → GoVal → List (String × GoVal)
  | [], k, v => [(k, v)]
  | (k', v') :: rest, k, v =>
      if k' == k then (k, v) :: rest else (k', v') :: mapUpsert rest k v

/-- Is the prototype a struct (the `field.Type.Elem().Kind() ==
reflect.Struct` test on an embedded pointer's element type)? -/
def isStructProto : GoVal → Bool
  | .vstruct _ _ => true
  | _ => false

/-- The anonymous-embedded-field resolution step of the flattener: an
embedded pointer-to-record is initialized in place when nil and settable
(the root is mutated), dereferenced when non-nil, and replaced by a
detached fresh zero record when nil but not settable; any other field
keeps its own slot.  Returns the (possibly mutated) root, the resolved
location, and the resolved value. -/
def resolveEmbedded (q : FLoc) (i : Nat) (fd : FieldDecl) (fv0 root : GoVal) :
    GoVal × FLoc × GoVal :=
  if fd.anonymous then
    match fv0 with
    | .vptr z po =>
      if isStructProto z then
        match po with
        | none =>
          match q with
          | .inRoot qp =>
              (setPath (qp ++ [.fld i]) root (.vptr z (some z)),
               .inRoot (qp ++ [.fld i, .deref]), z)
          | .det _ => (root, .det z, z)
        | some w =>
          (root,
           (match q with
            | .inRoot qp => .inRoot (qp ++ [.fld i, .deref])
            | .det _ => .det w), w)
      else (root, childLoc q i fv0, fv0)
    | _ => (root, childLoc q i fv0, fv0)
  else (root, childLoc q i fv0, fv0)

/-- The body of `flattenStruct`'s per-field loop: walks the declarations of
the struct snapshot at location `q` (fields paired with their current
values, indexed from `i`), threading the mutable root (embedded nil
pointers get initialized in place when settable), the queue additions
(embedded records to flatten later, breadth-first), and the accumulated
name-keyed field set (first name wins). -/
def flattenFields (cfg : AssignConfig) (q : FLoc) :
    List (FieldDecl × GoVal) → Nat → GoVal → List FLoc →
    List (String × FInfo) → GoVal × List FLoc × List (String × FInfo)
  | [], _, root, qAdd, acc => (root, qAdd, acc)
  | (fd, fv0) :: rest, i, root, qAdd, acc =>
    if fd.exported = false then
      flattenFields cfg q rest (i + 1) root qAdd acc
    else
      let pt := parseTag cfg fd
      if pt.2.2 then
        flattenFields cfg q rest (i + 1) root qAdd acc
      else if pt.2.1 && isZeroVal fv0 then
        flattenFields cfg q rest (i + 1) root qAdd acc
      else
        let st := resolveEmbedded q i fd fv0 root
        if fd.anonymous && isStructProto st.2.2 then
          flattenFields cfg q rest (i + 1) st.1 (qAdd ++ [st.2.1]) acc
        else if acc.any (fun e => e.1 == fd.name) then
          flattenFields cfg q rest (i + 1) st.1 qAdd acc
        else
          flattenFields cfg q rest (i + 1) st.1 qAdd
            (acc ++ [(fd.name,
              { displayName := fd.name, actualName := pt.1,
                omitempty := pt.2.1, decl := fd, loc := st.2.1 })])

/-- The breadth-first worklist of `flattenStruct`: pop the front location,
flatten its fields, push discovered embedded records at the back.  The
fuel bounds the number of records processed (the Go loop runs until the
queue empties; on the finite values of the model any fuel of at least the
number of embedded records reproduces it fully). -/
def flattenLoop (cfg : AssignConfig) :
    Nat → GoVal → List FLoc → List (String × FInfo) →
    GoVal × List (String × FInfo)
  | 0, root, _, acc => (root, acc)
  | _ + 1, root, [], acc => (root, acc)
  | n + 1, root, q :: qs, acc =>
    match readLoc root q with
    | .vstruct d vs =>
      let r := flattenFields cfg q (d.zip vs) 0 root [] acc
      flattenLoop cfg n r.1 (qs ++ r.2.1) r.2.2
    | _ => flattenLoop cfg n root qs acc

/-- `flattenStruct`: flatten a record's own and embedded fields into one
name-indexed set.  `settable` is true when flattening the addressable
target (field locations are live paths) and false when flattening a source
(field locations are detached values, nothing is mutated). -/
def flattenStruct (cfg : AssignConfig) (settable : Bool) (fuel : Nat)
    (val : GoVal) : GoVal × List (String × FInfo) :=
  flattenLoop cfg fuel val [if settable then .inRoot [] else .det val] []

/-- An error: either a plain message (`fmt.Errorf`) or the package's
aggregate `Error` holding the ordered list of accumulated messages. -/
inductive AErr where
  | msg (s : String)
  | agg (errs : List String)
deriving DecidableEq, Repr

/-- Modelled from the spec: `appendErrors` and the aggregate `Error` type
are declared in repository files outside `src/`.  Per the spec, child
errors are "accumulated into a list rather than aborting the parent
traversal" and the aggregate "exposes the full ordered list of individual
failure messages", so appending an aggregate splices its messages and
appending a plain error appends its message. -/
def appendErrors (errors : List String) (e : AErr) : List String :=
  match e with
  | .msg s => errors ++ [s]
  | .agg es => errors ++ es

/-- Append an optional error to an accumulated message list. -/
def pushErr (errors : List String) : Option AErr → List String
  | none => errors
  | some e => appendErrors errors e

/-- Wrap an accumulated message list: `&Error{errors}` when non-empty. -/
def errFromList (errors : List String) : Option AErr :=
  if errors.isEmpty then none else some (.agg errors)

/-- The result of one assignment step: the (possibly mutated) target
value, the error if any, and the metadata delta this step produced. -/
structure ARes where
  target : GoVal
  err : Option AErr := none
  meta : Meta := emptyMeta

/-- The shape of the recursive `assign` call handed to the per-kind
handlers: configuration, target slot, target path, source, source path. -/
abbrev ReCall := AssignConfig → GoVal → String → GoVal → String → ARes

/-- `reflect.Indirect`: dereference a pointer (the nil pointer dereferences
to the invalid value), identity otherwise. -/
def indirect : GoVal → GoVal
  | .vptr _ (some w) => w
  | .vptr _ none => .vnil
  | v => v

/-- Unwrap an interface-kind value to the value it holds (an interface
holding nothing unwraps to the invalid value).  Variant 1 receives sources
as `any`, so Go itself performs this unwrap before `assign` runs; variant 2
performs it explicitly after the nil checks. -/
def unwrapIface : GoVal → GoVal
  | .viface (some w) => w
  | .viface none => .vnil
  | v => v

/-- Decimal digit accumulator for the strconv models. -/
def decDigitsAux : List Char → Nat → Option Nat
  | [], acc => some acc
  | c :: cs, acc =>
      if c.isDigit then decDigitsAux cs (acc * 10 + (c.toNat - '0'.toNat))
      else none

/-- Model of `strconv.ParseUint` (decimal case; base prefixes are omitted,
no claim exercises them). -/
def parseUintM (s : String) : Option Nat :=
  match s.data with
  | [] => none
  | ds => decDigitsAux ds 0

/-- Model of `strconv.ParseInt` (decimal case with optional sign). -/
def parseIntM (s : String) : Option Int :=
  match s.data with
  | [] => none
  | '-' :: ds =>
      match ds with
      | [] => none
      | _ => (decDigitsAux ds 0).map (fun n => -(n : Int))
  | '+' :: ds =>
      match ds with
      | [] => none
      | _ => (decDigitsAux ds 0).map (fun n => (n : Int))
  | ds => (decDigitsAux ds 0).map (fun n => (n : Int))

/-- Model of `strconv.ParseFloat` restricted to the integral values the
model's floats carry (fractional and exponent syntax is omitted, no claim
exercises it). -/
def parseFloatM (s : String) : Option Int := parseIntM s

/-- `strconv.ParseBool`: the exact token set the engine documents. -/
def parseBoolM (s : String) : Option Bool :=
  if s == "1" || s == "t" || s == "T" || s == "TRUE" || s == "true" || s == "True" then
    some true
  else if s == "0" || s == "f" || s == "F" || s == "FALSE" || s == "false" || s == "False" then
    some false
  else none

/-- Is the element prototype the byte kind (`reflect.Uint8`; the model
collapses unsigned widths the way the engine's `getKind` does)? -/
def isUintProto : GoVal → Bool
  | .vuint _ => true
  | _ => false

/-- `string(uints)`: build a string from a byte-element sequence. -/
def bytesToString (xs : List GoVal) : String :=
  String.mk (xs.map fun x =>
    match x with
    | .vuint n => Char.ofNat n
    | _ => ' ')

/-- The `unconvertible type` error every scalar handler falls back to.
Type names are printed as bare kind names and the `%v` source rendering is
omitted (no claim depends on message text). -/
def uncvErr (tk : String) (t sv : GoVal) : Option AErr :=
  some (.msg ("'" ++ tk ++ "' expected type '" ++ kindName t
    ++ "', got unconvertible type '" ++ kindName sv ++ "'"))

/-- `assignBool`: strict accepts booleans; weak adds nonzero numbers and
the strict true/false token set, with empty text meaning false. -/
def assignBool (cfg : AssignConfig) (t : GoVal) (tk : String) (s : GoVal) :
    GoVal × Option AErr :=
  let sv := indirect s
  match sv with
  | .vbool b => (.vbool b, none)
  | .vint n =>
      if cfg.WeaklyTypedInput then (.vbool (n != 0), none) else (t, uncvErr tk t sv)
  | .vuint n =>
      if cfg.WeaklyTypedInput then (.vbool (n != 0), none) else (t, uncvErr tk t sv)
  | .vfloat x =>
      if cfg.WeaklyTypedInput then (.vbool (x != 0), none) else (t, uncvErr tk t sv)
  | .vstring str =>
      if cfg.WeaklyTypedInput then
        match parseBoolM str with
        | some b => (.vbool b, none)
        | none =>
          if str == "" then (.vbool false, none)
          else (t, some (.msg ("cannot parse '" ++ tk ++ "' as bool")))
      else (t, uncvErr tk t sv)
  | _ => (t, uncvErr tk t sv)

/-- `assignString`: strict accepts text; weak adds booleans (as "1"/"0"),
numbers (decimal), and byte sequences. -/
def assignString (cfg : AssignConfig) (t : GoVal) (tk : String) (s : GoVal) :
    GoVal × Option AErr :=
  let sv := indirect s
  match sv with
  | .vstring str => (.vstring str, none)
  | .vbool b =>
      if cfg.WeaklyTypedInput then (.vstring (if b then "1" else "0"), none)
      else (t, uncvErr tk t sv)
  | .vint n =>
      if cfg.WeaklyTypedInput then (.vstring (toString n), none)
      else (t, uncvErr tk t sv)
  | .vuint n =>
      if cfg.WeaklyTypedInput then (.vstring (toString n), none)
      else (t, uncvErr tk t sv)
  | .vfloat x =>
      if cfg.WeaklyTypedInput then (.vstring (toString x), none)
      else (t, uncvErr tk t sv)
  | .vslice z xs =>
      if cfg.WeaklyTypedInput && isUintProto z then
        (.vstring (bytesToString (xs.getD [])), none)
      else (t, uncvErr tk t sv)
  | .varray z xs =>
      if cfg.WeaklyTypedInput && isUintProto z then
        (.vstring (bytesToString xs), none)
      else (t, uncvErr tk t sv)
  | _ => (t, uncvErr tk t sv)

/-- `assignInt`: strict accepts signed, unsigned and float sources (float
truncates toward zero; the model's floats are integral); weak adds
booleans and parsed text (empty text reads as zero).  The `json.Number`
branch is outside the value universe. -/
def assignInt (cfg : AssignConfig) (t : GoVal) (tk : String) (s : GoVal) :
    GoVal × Option AErr :=
  let sv := indirect s
  match sv with
  | .vint n => (.vint n, none)
  | .vuint u => (.vint (wrapToInt64 u), none)
  | .vfloat x => (.vint (wrapToInt64 x), none)
  | .vbool b =>
      if cfg.WeaklyTypedInput then (.vint (if b then 1 else 0), none)
      else (t, uncvErr tk t sv)
  | .vstring str =>
      if cfg.WeaklyTypedInput then
        let str := if str == "" then "0" else str
        match parseIntM str with
        | some i =>
          if i < -(2 ^ 63) ∨ 2 ^ 63 ≤ i then
            (t, some (.msg ("cannot parse '" ++ tk ++ "' as int")))
          else (.vint i, none)
        | none => (t, some (.msg ("cannot parse '" ++ tk ++ "' as int")))
      else (t, uncvErr tk t sv)
  | _ => (t, uncvErr tk t sv)

/-- `assignUint`: as `assignInt`, except that a negative signed or float
source is an overflow error under strict typing and wraps two's-complement
under weak typing. -/
def assignUint (cfg : AssignConfig) (t : GoVal) (tk : String) (s : GoVal) :
    GoVal × Option AErr :=
  let sv := indirect s
  match sv with
  | .vint i =>
      if i < 0 ∧ ¬cfg.WeaklyTypedInput then
        (t, some (.msg ("cannot parse '" ++ tk ++ "', " ++ toString i
          ++ " overflows uint")))
      else (.vuint (wrapToUint64 i), none)
  | .vuint u => (.vuint u, none)
  | .vfloat f =>
      if f < 0 ∧ ¬cfg.WeaklyTypedInput then
        (t, some (.msg ("cannot parse '" ++ tk ++ "', " ++ toString f
          ++ " overflows uint")))
      else (.vuint (wrapToUint64 f), none)
  | .vbool b =>
      if cfg.WeaklyTypedInput then (.vuint (if b then 1 else 0), none)
      else (t, uncvErr tk t sv)
  | .vstring str =>
      if cfg.WeaklyTypedInput then
        let str := if str == "" then "0" else str
        match parseUintM str with
        | some u =>
          if 2 ^ 64 ≤ u then
            (t, some (.msg ("cannot parse '" ++ tk ++ "' as uint")))
          else (.vuint u, none)
        | none => (t, some (.msg ("cannot parse '" ++ tk ++ "' as uint")))
      else (t, uncvErr tk t sv)
  | _ => (t, uncvErr tk t sv)

/-- `assignFloat` (variant 1 path; variant 2's NaN/Infinity rejection can
not fire on the model's integral floats). -/
def assignFloat (cfg : AssignConfig) (t : GoVal) (tk : String) (s : GoVal) :
    GoVal × Option AErr :=
  let sv := indirect s
  match sv with
  | .vint n => (.vfloat n, none)
  | .vuint u => (.vfloat u, none)
  | .vfloat x => (.vfloat x, none)
  | .vbool b =>
      if cfg.WeaklyTypedInput then (.vfloat (if b then 1 else 0), none)
      else (t, uncvErr tk t sv)
  | .vstring str =>
      if cfg.WeaklyTypedInput then
        let str := if str == "" then "0" else str
        match parseFloatM str with
        | some f => (.vfloat f, none)
        | none => (t, some (.msg ("cannot parse '" ++ tk ++ "' as float")))
      else (t, uncvErr tk t sv)
  | _ => (t, uncvErr tk t sv)

/-- `assignFunc`: direct type-identity copy only. -/
def assignFunc (_cfg : AssignConfig) (t : GoVal) (tk : String) (s : GoVal) :
    GoVal × Option AErr :=
  let sv := indirect s
  match t, sv with
  | .vfunc sig _, .vfunc sig2 f2 =>
      if sig == sig2 then (.vfunc sig f2, none) else (t, uncvErr tk t sv)
  | _, _ => (t, uncvErr tk t sv)

/-- `assignBasic` (an interface-kind target): when the slot already holds a
value, recurse into that concrete value (through a writable copy; on error
the copy is discarded and the slot keeps its old value); when empty,
dereference a pointer-to-interface source and store the source directly
(everything is assignable to the empty interface). -/
def assignBasic (cfg : AssignConfig) (recur : ReCall) (t : GoVal)
    (tk : String) (s : GoVal) (sk : String) : ARes :=
  match t with
  | .viface (some held) =>
    let r := recur cfg held tk s sk
    match r.err with
    | some e => ⟨t, some e, r.meta⟩
    | none => ⟨.viface (some r.target), none, r.meta⟩
  | .viface none =>
    let sv :=
      match s with
      | .vptr (.viface _) (some w) => w
      | x => x
    ⟨.viface (some sv), none, emptyMeta⟩
  | _ => ⟨t, some (.msg "unreachable: assignBasic on a non-interface target"), emptyMeta⟩

/-- `assignPtr`: a nil-ish source (nil map/slice/interface/func/pointer
after one dereference) sets the target pointer to nil and reports `true`
("the recursive call did not run, record the path yourself"); otherwise
the pointee is built (fresh zero backing value when the target is nil) by
a recursive call and the pointer is swapped in only on success, reporting
`false` ("the recursive call already recorded this same path"). -/
def assignPtr (cfg : AssignConfig) (recur : ReCall) (t : GoVal)
    (tk : String) (s : GoVal) (sk : String) : Bool × ARes :=
  let v := indirect s
  let isNil :=
    match v with
    | .vmap _ none | .vslice _ none | .viface none
    | .vfunc _ none | .vptr _ none => true
    | _ => false
  if isNil then
    let t' :=
      match t with
      | .vptr z (some _) => .vptr z none
      | x => x
    (true, ⟨t', none, emptyMeta⟩)
  else
    match t with
    | .vptr z po =>
      let realVal := po.getD z
      let r := recur cfg realVal tk s sk
      match r.err with
      | some e =>
        match po with
        | some _ => (false, ⟨.vptr z (some r.target), some e, r.meta⟩)
        | none => (false, ⟨t, some e, r.meta⟩)
      | none => (false, ⟨.vptr z (some r.target), none, r.meta⟩)
    | _ => (false, ⟨t, some (.msg "unreachable: assignPtr on a non-pointer target"), emptyMeta⟩)

/-- The entry loop of `assignMapFromMap`: convert each source key (with the
model's string keys the weak coercion is the identity and cannot fail),
assign the entry value into a fresh zero of the element type, and on
success set the map entry; errors are collected and the entry skipped. -/
def mapMapLoop (impl : Impl) (cfg : AssignConfig) (recur : ReCall)
    (tk sk : String) (z : GoVal) :
    List (String × GoVal) → List (String × GoVal) → Meta → List String →
    List (String × GoVal) × Meta × List String
  | [], base, meta, errs => (base, meta, errs)
  | (k, v) :: rest, base, meta, errs =>
    let tkc := newChild tk .map k
    let skc := newChild sk .map k
    let sres := shouldSkipKey impl cfg tkc skc
    if sres.1 then
      mapMapLoop impl cfg recur tk sk z rest base (mergeMeta meta sres.2) errs
    else
      let r := recur cfg z tkc v skc
      match r.err with
      | some e =>
        mapMapLoop impl cfg recur tk sk z rest base
          (mergeMeta meta r.meta) (appendErrors errs e)
      | none =>
        mapMapLoop impl cfg recur tk sk z rest (mapUpsert base k r.target)
          (mergeMeta meta r.meta) errs

/-- `assignMapFromMap`: nil source is a no-op; a present-but-empty source
replaces the target with a fresh empty map of its declared type; otherwise
the target map is created if nil and merged into entry by entry. -/
def assignMapFromMap (impl : Impl) (cfg : AssignConfig) (recur : ReCall)
    (t : GoVal) (tk : String) (sv : GoVal) (sk : String) : ARes :=
  match t, sv with
  | .vmap z tentries, .vmap _ sentries =>
    match sentries with
    | none => ⟨.vmap z tentries, none, emptyMeta⟩
    | some ses =>
      if ses.length == 0 then
        ⟨.vmap z (some []), none, addMetaKey cfg emptyMeta tk⟩
      else
        let base := tentries.getD []
        let lr := mapMapLoop impl cfg recur tk sk z ses base emptyMeta []
        ⟨.vmap z (some lr.1), errFromList lr.2.2, lr.2.1⟩
  | _, _ => ⟨t, some (.msg "unreachable: assignMapFromMap shapes"), emptyMeta⟩

/-- The element loop of `assignMapFromSlice`: each element is re-assigned
into the same map target (merge-folding a sequence of maps); the first
element error aborts the loop. -/
def mapSliceLoop (cfg : AssignConfig) (recur : ReCall) (tk sk : String) :
    List GoVal → Nat → GoVal → Meta → GoVal × Meta × Option AErr
  | [], _, cur, meta => (cur, meta, none)
  | e :: rest, i, cur, meta =>
    let r := recur cfg cur tk e (newChild sk .slice (toString i))
    match r.err with
    | some err => (r.target, mergeMeta meta r.meta, some err)
    | none => mapSliceLoop cfg recur tk sk rest (i + 1) r.target (mergeMeta meta r.meta)

/-- `assignMapFromSlice` (weak typing only): nil source is a no-op, empty
source yields a fresh empty map, and a non-empty source is folded into the
target map element by element.  An array source reaches `IsNil`, which is
a Go run-time panic; the model reports it as an error. -/
def assignMapFromSlice (_impl : Impl) (cfg : AssignConfig) (recur : ReCall)
    (t : GoVal) (tk : String) (sv : GoVal) (sk : String) : ARes :=
  match t, sv with
  | .vmap z tentries, .vslice _ sentries =>
    match sentries with
    | none => ⟨.vmap z tentries, none, emptyMeta⟩
    | some ses =>
      if ses.length == 0 then
        ⟨.vmap z (some []), none, addMetaKey cfg emptyMeta tk⟩
      else
        let base : GoVal := .vmap z (some (tentries.getD []))
        let lr := mapSliceLoop cfg recur tk sk ses 0 base emptyMeta
        ⟨lr.1, lr.2.2, lr.2.1⟩
  | .vmap _ _, .varray _ _ =>
      ⟨t, some (.msg "run time panic: reflect: call of IsNil on array Value"), emptyMeta⟩
  | _, _ => ⟨t, some (.msg "unreachable: assignMapFromSlice shapes"), emptyMeta⟩

/-- The field loop of `assignMapFromStruct`: a source field whose type is
not assignable to the map's element type aborts the whole operation; a
record-valued field is stored wholesale (the outer assignability check
already passed, so the nested-map fallback of the source is unreachable,
but it is kept with the same structure); other fields honor omit-empty
and are stored under their external names.  With the model's string keys
the weak key coercion is the identity and cannot fail. -/
def mfsLoop (impl : Impl) (cfg : AssignConfig)
    (nest : GoVal → String → GoVal → String → ARes) (tk sk : String)
    (z : GoVal) (sroot : GoVal) :
    List (String × FInfo) → List (String × GoVal) → Meta →
    List (String × GoVal) × Meta × Option AErr
  | [], base, meta => (base, meta, none)
  | (_, sf) :: rest, base, meta =>
    let fv := readLoc sroot sf.loc
    if !(assignableTo fv z) then
      (base, meta, some (.msg ("cannot assign type '" ++ kindName fv
        ++ "' to map value field of type '" ++ kindName z ++ "'")))
    else
      let tkc := newChild tk .map sf.actualName
      let skc := newChild sk .strct sf.displayName
      let sres := shouldSkipKey impl cfg tkc skc
      if sres.1 then
        mfsLoop impl cfg nest tk sk z sroot rest base (mergeMeta meta sres.2)
      else
        match fv with
        | .vstruct _ _ =>
          if assignableTo fv z then
            mfsLoop impl cfg nest tk sk z sroot rest
              (mapUpsert base sf.actualName fv) (addMetaKey cfg meta tkc)
          else
            let child : GoVal := .vmap (.viface none) (some [])
            if !(assignableTo child z) then
              mfsLoop impl cfg nest tk sk z sroot rest base
                (addMetaUnused cfg meta skc)
            else
              let rn := nest child tkc fv skc
              match rn.err with
              | some e => (base, mergeMeta meta rn.meta, some e)
              | none =>
                mfsLoop impl cfg nest tk sk z sroot rest
                  (mapUpsert base sf.actualName rn.target)
                  (addMetaKey cfg (mergeMeta meta rn.meta) tkc)
        | _ =>
          if sf.omitempty && isEmptyValue fv then
            mfsLoop impl cfg nest tk sk z sroot rest base
              (addMetaUnused cfg meta skc)
          else
            mfsLoop impl cfg nest tk sk z sroot rest
              (mapUpsert base sf.actualName fv) (addMetaKey cfg meta tkc)

/-- `assignMapFromStruct`: create the target map if nil, flatten the source
record (non-settable side), and write one entry per flattened field.  The
fuel bounds the nesting depth of the (unreachable) nested-record path and
the flattening. -/
def assignMapFromStruct (impl : Impl) (cfg : AssignConfig) :
    Nat → GoVal → String → GoVal → String → ARes
  | 0, t, _, _, _ => ⟨t, some (.msg "recursion fuel exhausted"), emptyMeta⟩
  | fuelN + 1, t, tk, sv, sk =>
    match t with
    | .vmap z tentries =>
      let base := tentries.getD []
      let fl := flattenStruct cfg false (fuelN + 1) sv
      let lr := mfsLoop impl cfg
        (fun child tkc csv skc => assignMapFromStruct impl cfg fuelN child tkc csv skc)
        tk sk z fl.1 fl.2 base emptyMeta
      ⟨.vmap z (some lr.1), lr.2.2, lr.2.1⟩
    | _ => ⟨t, some (.msg "unreachable: assignMapFromStruct target"), emptyMeta⟩

/-- `assignMap`: dispatch on the source shape — map merges, record writes
its flattened fields, and (weak typing only) a sequence merge-folds. -/
def assignMap (impl : Impl) (cfg : AssignConfig) (recur : ReCall)
    (fuelN : Nat) (t : GoVal) (tk : String) (s : GoVal) (sk : String) : ARes :=
  let sv := indirect s
  match sv with
  | .vmap _ _ => assignMapFromMap impl cfg recur t tk sv sk
  | .vstruct _ _ => assignMapFromStruct impl cfg (fuelN + 1) t tk sv sk
  | .vslice _ _ | .varray _ _ =>
    if cfg.WeaklyTypedInput then assignMapFromSlice impl cfg recur t tk sv sk
    else ⟨t, some (.msg ("'" ++ tk ++ "' expected a map, got '" ++ kindName sv ++ "'")), emptyMeta⟩
  | _ => ⟨t, some (.msg ("'" ++ tk ++ "' expected a map, got '" ++ kindName sv ++ "'")), emptyMeta⟩

/-- The index loop of `assignSlice`: grow the working slice with zero
elements until the index exists, then assign the source element into it
(skipped indices keep the padded zero); per-index errors are collected
without aborting the remaining indices. -/
def sliceLoop (impl : Impl) (cfg : AssignConfig) (recur : ReCall)
    (tk sk : String) (z : GoVal) :
    List GoVal → Nat → List GoVal → Meta → List String →
    List GoVal × Meta × List String
  | [], _, cur, meta, errs => (cur, meta, errs)
  | se :: rest, i, cur, meta, errs =>
    let cur := if cur.length ≤ i then cur ++ List.replicate (i + 1 - cur.length) z else cur
    let tkc := newChild tk .slice (toString i)
    let skc := newChild sk .slice (toString i)
    let sres := shouldSkipKey impl cfg tkc skc
    if sres.1 then
      sliceLoop impl cfg recur tk sk z rest (i + 1) cur (mergeMeta meta sres.2) errs
    else
      let r := recur cfg (cur.getD i .vnil) tkc se skc
      sliceLoop impl cfg recur tk sk z rest (i + 1) (cur.set i r.target)
        (mergeMeta meta r.meta) (pushErr errs r.err)

/-- `assignSlice`: non-sequence sources are weak-lifted (empty map to empty
slice, non-empty map and scalars to a one-element sequence, text to bytes
for byte-element targets) by retrying with the lifted source; a nil slice
source is a no-op; otherwise allocate (nil target) or truncate (longer
target) to the source length and assign index by index.  The retry fuel
only needs to cover the bounded lift (the engine calls itself at most
twice); `assign` passes a sufficient constant. -/
def assignSlice (impl : Impl) (cfg : AssignConfig) (recur : ReCall) :
    Nat → GoVal → String → GoVal → String → ARes
  | 0, t, _, _, _ => ⟨t, some (.msg "recursion fuel exhausted"), emptyMeta⟩
  | fuelS + 1, t, tk, s, sk =>
    let sv := indirect s
    match t with
    | .vslice z xs =>
      let run : List GoVal → ARes := fun ses =>
        let base :=
          match xs with
          | none => List.replicate ses.length z
          | some cur => if ses.length < cur.length then cur.take ses.length else cur
        let lr := sliceLoop impl cfg recur tk sk z ses 0 base emptyMeta []
        ⟨.vslice z (some lr.1), errFromList lr.2.2, lr.2.1⟩
      match sv with
      | .vslice _ none => ⟨t, none, emptyMeta⟩
      | .vslice _ (some ses) => run ses
      | .varray _ ses => run ses
      | _ =>
        if cfg.WeaklyTypedInput then
          match sv with
          | .vmap _ entries =>
            if (entries.getD []).isEmpty then
              ⟨.vslice z (some []), none, addMetaKey cfg emptyMeta tk⟩
            else
              assignSlice impl cfg recur fuelS t tk (.vslice (.viface none) (some [s])) sk
          | .vstring str =>
            if isUintProto z then
              assignSlice impl cfg recur fuelS t tk
                (.vslice (.vuint 0) (some (str.data.map (fun c => .vuint c.toNat)))) sk
            else
              assignSlice impl cfg recur fuelS t tk (.vslice (.viface none) (some [s])) sk
          | _ =>
            assignSlice impl cfg recur fuelS t tk (.vslice (.viface none) (some [s])) sk
        else
          ⟨t, some (.msg ("'" ++ tk ++ "': source data must be an array or slice, got "
            ++ kindName sv)), emptyMeta⟩
    | _ => ⟨t, some (.msg "unreachable: assignSlice on a non-slice target"), emptyMeta⟩

/-- The index loop of `assignArray`: like the slice loop but without
growing; an index beyond the fixed length is a Go run-time panic (only
reachable when re-assigning a longer source onto an already-populated
array), reported here as an error that stops the loop. -/
def arrayLoop (impl : Impl) (cfg : AssignConfig) (recur : ReCall)
    (tk sk : String) :
    List GoVal → Nat → List GoVal → Meta → List String →
    List GoVal × Meta × List String
  | [], _, cur, meta, errs => (cur, meta, errs)
  | se :: rest, i, cur, meta, errs =>
    if cur.length ≤ i then
      (cur, meta, errs ++ ["run time panic: index out of range"])
    else
      let tkc := newChild tk .array (toString i)
      let skc := newChild sk .array (toString i)
      let sres := shouldSkipKey impl cfg tkc skc
      if sres.1 then
        arrayLoop impl cfg recur tk sk rest (i + 1) cur (mergeMeta meta sres.2) errs
      else
        let r := recur cfg (cur.getD i .vnil) tkc se skc
        arrayLoop impl cfg recur tk sk rest (i + 1) (cur.set i r.target)
          (mergeMeta meta r.meta) (pushErr errs r.err)

/-- `assignArray`: a zero-valued target is allocated fresh after the shape
and length checks (weak lifts as for slices, but a non-empty map is not
lifted and only an empty map becomes a zero array); an already-populated
target is merged element-wise in place without those checks.  Variant 2
zero-fills the indices beyond the source length, variant 1 leaves them. -/
def assignArray (impl : Impl) (cfg : AssignConfig) (recur : ReCall) :
    Nat → GoVal → String → GoVal → String → ARes
  | 0, t, _, _, _ => ⟨t, some (.msg "recursion fuel exhausted"), emptyMeta⟩
  | fuelS + 1, t, tk, s, sk =>
    let sv := indirect s
    match t with
    | .varray z xs =>
      let n := xs.length
      let runOn : List GoVal → List GoVal → ARes := fun valArr ses =>
        let lr := arrayLoop impl cfg recur tk sk ses 0 valArr emptyMeta []
        let cur := lr.1
        let cur :=
          if impl = .v2 ∧ ses.length < n then
            (cur.take ses.length) ++ List.replicate (n - ses.length) z
          else cur
        ⟨.varray z cur, errFromList lr.2.2, lr.2.1⟩
      if xs.attach.all (fun x => isZeroVal x.1) then
        match sv with
        | .vslice _ ses => -- a nil slice has length 0 and passes the checks
          let ses := ses.getD []
          if n < ses.length then
            ⟨t, some (.msg ("'" ++ tk ++ "': expected source data to have length less or equal to "
              ++ toString n ++ ", got " ++ toString ses.length)), emptyMeta⟩
          else runOn (List.replicate n z) ses
        | .varray _ ses =>
          if n < ses.length then
            ⟨t, some (.msg ("'" ++ tk ++ "': expected source data to have length less or equal to "
              ++ toString n ++ ", got " ++ toString ses.length)), emptyMeta⟩
          else runOn (List.replicate n z) ses
        | _ =>
          if cfg.WeaklyTypedInput then
            match sv with
            | .vmap _ entries =>
              if (entries.getD []).isEmpty then
                ⟨.varray z (List.replicate n z), none, addMetaKey cfg emptyMeta tk⟩
              else
                ⟨t, some (.msg ("'" ++ tk ++ "': source data must be an array or slice, got "
                  ++ kindName sv)), emptyMeta⟩
            | _ =>
              assignArray impl cfg recur fuelS t tk (.vslice (.viface none) (some [s])) sk
          else
            ⟨t, some (.msg ("'" ++ tk ++ "': source data must be an array or slice, got "
              ++ kindName sv)), emptyMeta⟩
      else
        match sv with
        | .vslice _ ses => runOn xs (ses.getD [])
        | .varray _ ses => runOn xs ses
        | _ =>
          ⟨t, some (.msg "run time panic: reflect: call of Len on a non-sequence Value"), emptyMeta⟩
    | _ => ⟨t, some (.msg "unreachable: assignArray on a non-array target"), emptyMeta⟩

/-- The field loop of `assignStructFromMap`: for each flattened target
field, convert its external name into the map's key type (identity on the
model's string keys) and look it up; a missing key records the target path
as unset and moves on; a present key is assigned recursively (collecting
the error, if any) after the skip-key and settability checks, and its
source key is marked processed. -/
def sfmLoop (impl : Impl) (cfg : AssignConfig) (recur : ReCall)
    (tk sk : String) (sentries : List (String × GoVal)) :
    List (String × FInfo) → GoVal → Meta → List String → List String →
    GoVal × Meta × List String × List String
  | [], root, meta, errs, processed => (root, meta, errs, processed)
  | (_, tf) :: rest, root, meta, errs, processed =>
    let tkc := newChild tk .strct tf.displayName
    match alookup sentries tf.actualName with
    | none =>
      sfmLoop impl cfg recur tk sk sentries rest root
        (addMetaUnset cfg meta tkc) errs processed
    | some v =>
      let skc := newChild sk .map tf.actualName
      let sres := shouldSkipKey impl cfg tkc skc
      if sres.1 then
        sfmLoop impl cfg recur tk sk sentries rest root
          (mergeMeta meta sres.2) errs processed
      else if tf.canSet = false then
        sfmLoop impl cfg recur tk sk sentries rest root
          (addMetaUnset cfg meta tkc) errs processed
      else
        let r := recur cfg (readLoc root tf.loc) tkc v skc
        sfmLoop impl cfg recur tk sk sentries rest
          (writeLoc root tf.loc r.target) (mergeMeta meta r.meta)
          (pushErr errs r.err) (processed ++ [tf.actualName])

/-- `assignStructFromMap`: flatten the target record (live, settable
side), run the field loop, record every unconsumed source key as unused,
and aggregate the collected per-field errors.  The `InvalidKeyType` check
passes by construction (the model's maps are string-keyed). -/
def assignStructFromMap (impl : Impl) (cfg : AssignConfig) (recur : ReCall)
    (flatFuel : Nat) (t : GoVal) (tk : String)
    (sentries : List (String × GoVal)) (sk : String) : ARes :=
  let fl := flattenStruct cfg true flatFuel t
  let lr := sfmLoop impl cfg recur tk sk sentries fl.2 fl.1 emptyMeta [] []
  let unusedKeys := (sentries.map (·.1)).filter (fun k => !(lr.2.2.2.contains k))
  let meta := unusedKeys.foldl (fun m k => addMetaUnused cfg m (newChild sk .map k)) lr.2.1
  ⟨lr.1, errFromList lr.2.2.1, meta⟩

/-- The field loop of `assignStructFromStruct`: match target fields to
source fields by declared (internal) name; missing source fields record
the target path as unset, matched fields are assigned recursively and the
source field is consumed. -/
def ssLoop (impl : Impl) (cfg : AssignConfig) (recur : ReCall)
    (tk sk : String) (sfields : List (String × FInfo)) (sroot : GoVal) :
    List (String × FInfo) → GoVal → Meta → List String → List String →
    GoVal × Meta × List String × List String
  | [], troot, meta, errs, consumed => (troot, meta, errs, consumed)
  | (nm, tf) :: rest, troot, meta, errs, consumed =>
    let tkc := newChild tk .strct tf.displayName
    match alookup sfields nm with
    | none =>
      ssLoop impl cfg recur tk sk sfields sroot rest troot
        (addMetaUnset cfg meta tkc) errs consumed
    | some sf =>
      let skc := newChild sk .strct sf.displayName
      let sres := shouldSkipKey impl cfg tkc skc
      if sres.1 then
        ssLoop impl cfg recur tk sk sfields sroot rest troot
          (mergeMeta meta sres.2) errs consumed
      else if tf.canSet = false then
        -- the source field validity check holds by construction
        ssLoop impl cfg recur tk sk sfields sroot rest troot
          (addMetaUnset cfg meta tkc) errs consumed
      else
        let r := recur cfg (readLoc troot tf.loc) tkc (readLoc sroot sf.loc) skc
        ssLoop impl cfg recur tk sk sfields sroot rest
          (writeLoc troot tf.loc r.target) (mergeMeta meta r.meta)
          (pushErr errs r.err) (consumed ++ [nm])

/-- `assignStructFromStruct`: flatten both sides (the source side is
non-settable), run the field loop, and record every unconsumed source
field as unused. -/
def assignStructFromStruct (impl : Impl) (cfg : AssignConfig)
    (recur : ReCall) (flatFuel : Nat) (t : GoVal) (tk : String)
    (sv : GoVal) (sk : String) : ARes :=
  let flT := flattenStruct cfg true flatFuel t
  let flS := flattenStruct cfg false flatFuel sv
  let lr := ssLoop impl cfg recur tk sk flS.2 flS.1 flT.2 flT.1 emptyMeta [] []
  let leftovers := flS.2.filter (fun e => !(lr.2.2.2.contains e.1))
  let meta := leftovers.foldl
    (fun m e => addMetaUnused cfg m (newChild sk .strct e.2.displayName)) lr.2.1
  ⟨lr.1, errFromList lr.2.2.1, meta⟩

/-- `assignStruct`: records accept mapping or record sources only.  A nil
map source behaves as a map with no keys (every lookup misses). -/
def assignStruct (impl : Impl) (cfg : AssignConfig) (recur : ReCall)
    (flatFuel : Nat) (t : GoVal) (tk : String) (s : GoVal) (sk : String) : ARes :=
  let sv := indirect s
  match sv with
  | .vmap _ sentries => assignStructFromMap impl cfg recur flatFuel t tk (sentries.getD []) sk
  | .vstruct _ _ => assignStructFromStruct impl cfg recur flatFuel t tk sv sk
  | _ => ⟨t, some (.msg ("'" ++ tk ++ "' expected a map, got '" ++ kindName sv ++ "'")), emptyMeta⟩

/-- The dispatch of `assign` over the target's kind.  The returned flag is
Go's `addMetaKey` local: `false` means "do not run the Keys postlude"
(the pointer fill path, whose recursive call already recorded the path,
and the unsupported-type early return). -/
def assignDispatch (impl : Impl) (cfg : AssignConfig) (recur : ReCall)
    (fuelN : Nat) (t : GoVal) (tk : String) (s : GoVal) (sk : String) :
    Bool × ARes :=
  match t with
  | .vbool _ =>
    let r := assignBool cfg t tk s
    (true, ⟨r.1, r.2, emptyMeta⟩)
  | .viface _ => (true, assignBasic cfg recur t tk s sk)
  | .vstring _ =>
    let r := assignString cfg t tk s
    (true, ⟨r.1, r.2, emptyMeta⟩)
  | .vint _ =>
    let r := assignInt cfg t tk s
    (true, ⟨r.1, r.2, emptyMeta⟩)
  | .vuint _ =>
    let r := assignUint cfg t tk s
    (true, ⟨r.1, r.2, emptyMeta⟩)
  | .vfloat _ =>
    let r := assignFloat cfg t tk s
    (true, ⟨r.1, r.2, emptyMeta⟩)
  | .vstruct _ _ => (true, assignStruct impl cfg recur fuelN t tk s sk)
  | .vmap _ _ => (true, assignMap impl cfg recur fuelN t tk s sk)
  | .vptr _ _ => assignPtr cfg recur t tk s sk
  | .vslice _ _ => (true, assignSlice impl cfg recur 3 t tk s sk)
  | .varray _ _ => (true, assignArray impl cfg recur 3 t tk s sk)
  | .vfunc _ _ =>
    let r := assignFunc cfg t tk s
    (true, ⟨r.1, r.2, emptyMeta⟩)
  | .vnil =>
    (false, ⟨t, some (.msg (tk ++ ": unsupported type: " ++ kindName t)), emptyMeta⟩)

/-- The Keys postlude after dispatch: variant 1 records the target path
whenever the handler's flag allows it (even when the handler returned an
error); variant 2 records it only when additionally no error occurred. -/
def keysPostlude (impl : Impl) (cfg : AssignConfig) (tk : String)
    (d : Bool × ARes) : ARes :=
  if (match impl with
      | .v1 => d.1
      | .v2 => d.1 && d.2.err.isNone) then
    ⟨d.2.target, d.2.err, addMetaKey cfg d.2.meta tk⟩
  else d.2

/-- The recursive `assign`: skip-key check, typed-nil normalization, the
absent-source early success, the skip-same-values check, then kind
dispatch followed by the Keys postlude.  The fuel bounds the recursion
depth; every path that does not recurse is fuel-independent. -/
def assign (impl : Impl) (fuel : Nat) (cfg : AssignConfig) (t : GoVal)
    (tk : String) (s : GoVal) (sk : String) : ARes :=
  let sres := shouldSkipKey impl cfg tk sk
  if sres.1 then ⟨t, none, sres.2⟩
  else
    -- variant 1 takes `source any`, so Go unwraps interface values at the
    -- call boundary; variant 2 unwraps below, after the nil checks
    let s1 := match impl with
      | .v1 => unwrapIface s
      | .v2 => s
    let s2 := match s1 with
      | .vptr _ none => GoVal.vnil
      | x => x
    match s2 with
    | .vnil => ⟨t, none, emptyMeta⟩
    | s2 =>
      if cfg.SkipSameValues && deepEqual t (unwrapIface s2) then
        ⟨t, none, addMetaUnset cfg (addMetaUnused cfg emptyMeta sk) tk⟩
      else
        let s3 := unwrapIface s2
        match fuel with
        | 0 => ⟨t, some (.msg "recursion fuel exhausted"), emptyMeta⟩
        | n + 1 =>
          keysPostlude impl cfg tk (assignDispatch impl cfg (assign impl n) n t tk s3 sk)

/-- The exported `Assign`: the target must be a pointer whose dereference
is addressable (a non-nil pointer); then the recursive assignment runs on
the pointee with empty paths. -/
def AssignTop (impl : Impl) (fuel : Nat) (cfg : AssignConfig)
    (target source : GoVal) : ARes :=
  match target with
  | .vptr z (some v) =>
    let r := assign impl fuel cfg v "" source ""
    ⟨.vptr z (some r.target), r.err, r.meta⟩
  | .vptr _ none =>
    ⟨target, some (.msg "target must be addressable (a pointer)"), emptyMeta⟩
  | _ => ⟨target, some (.msg "target must be a pointer"), emptyMeta⟩

/-- The entry list of a map value (empty for a nil map or a non-map). -/
def mapEntriesOf : GoVal → List (String × GoVal)
  | .vmap _ (some es) => es
  | _ => []

/-- The value of top-level field `i` of a struct value. -/
def topVal : GoVal → Nat → Option GoVal
  | .vstruct _ vs, i => vs.get? i
  | _, _ => none

/-- The top-level declarations of a struct value. -/
def topDecls : GoVal → Option (List FieldDecl)
  | .vstruct d _ => some d
  | _ => none

/- ### Supporting lemmas -/

theorem shouldSkipKey_nil (impl : Impl) (cfg : AssignConfig) (tk sk : String)
    (h : cfg.SkipKeys = []) : shouldSkipKey impl cfg tk sk = (false, emptyMeta) := by
  simp [shouldSkipKey, h]

theorem shouldSkipKey_hit (impl : Impl) (cfg : AssignConfig) (tk sk : String)
    (htk : tk ≠ "") (hsk : sk ≠ "")
    (hmem : tk ∈ cfg.SkipKeys ∨ sk ∈ cfg.SkipKeys) :
    shouldSkipKey impl cfg tk sk
      = (true, match impl with
          | .v1 => addMetaUnset cfg (addMetaUnused cfg emptyMeta sk) tk
          | .v2 => emptyMeta) := by
  have h1 : (tk == "") = false := by simp [htk]
  have h2 : (sk == "") = false := by simp [hsk]
  simp [shouldSkipKey, h1, h2]
  rw [if_pos]
  · cases impl <;> rfl
  · rcases hmem with hm | hm <;> simp [hm]

theorem keysPostlude_target (impl : Impl) (cfg : AssignConfig) (tk : String)
    (d : Bool × ARes) : (keysPostlude impl cfg tk d).target = d.2.target := by
  unfold keysPostlude
  split <;> rfl

theorem keysPostlude_err (impl : Impl) (cfg : AssignConfig) (tk : String)
    (d : Bool × ARes) : (keysPostlude impl cfg tk d).err = d.2.err := by
  unfold keysPostlude
  split <;> rfl

theorem deepEqual_vuint_vint (u : Nat) (i : Int) :
    deepEqual (.vuint u) (.vint i) = false := by
  simp [deepEqual]

theorem deepEqual_vuint_vfloat (u : Nat) (x : Int) :
    deepEqual (.vuint u) (.vfloat x) = false := by
  simp [deepEqual]

theorem sliceLoop_len (impl : Impl) (cfg : AssignConfig) (recur : ReCall)
    (tk sk : String) (z : GoVal) :
    ∀ (ses : List GoVal) (i : Nat) (cur : List GoVal) (meta : Meta)
      (errs : List String),
      (sliceLoop impl cfg recur tk sk z ses i cur meta errs).1.length
        = if ses.isEmpty then cur.length else max cur.length (i + ses.length) := by
  intro ses
  induction ses with
  | nil => intro i cur meta errs; simp [sliceLoop]
  | cons se rest ih =>
    intro i cur meta errs
    have hlen : ∀ (c : List GoVal) (j : Nat),
        (if c.length ≤ j then c ++ List.replicate (j + 1 - c.length) z else c).length
          = max c.length (j + 1) := by
      intro c j
      split <;> simp <;> omega
    simp only [List.isEmpty_cons, if_false, Bool.false_eq_true]
    simp only [sliceLoop]
    split
    · rw [ih, hlen cur i]
      cases hrest : rest.isEmpty
      · simp only [if_false, Bool.false_eq_true, List.length_cons]
        omega
      · have : rest = [] := List.isEmpty_iff.mp hrest
        subst this
        simp
    · rw [ih]
      simp only [List.length_set]
      rw [hlen cur i]
      cases hrest : rest.isEmpty
      · simp only [if_false, Bool.false_eq_true, List.length_cons]
        omega
      · have : rest = [] := List.isEmpty_iff.mp hrest
        subst this
        simp

theorem errFromList_shape (l : List String) :
    errFromList l = none ∨ ∃ msgs, errFromList l = some (.agg msgs) ∧ msgs ≠ [] := by
  unfold errFromList
  cases h : l.isEmpty
  · right
    exact ⟨l, by simp, by simpa [List.isEmpty_iff] using h⟩
  · left
    simp

theorem assignSlice_shape (impl : Impl) (cfg : AssignConfig) (recur : ReCall)
    (fuelS : Nat) (z : GoVal) (xs : Option (List GoVal)) (zs : GoVal)
    (ses : List GoVal) (tk sk : String) :
    ∃ out,
      (assignSlice impl cfg recur (fuelS + 1) (.vslice z xs) tk
          (.vslice zs (some ses)) sk).target = .vslice z (some out)
      ∧ out.length = ses.length := by
  simp only [assignSlice, indirect]
  have hbase :
      (match xs with
        | none => List.replicate ses.length z
        | some cur => if ses.length < cur.length then cur.take ses.length else cur).length
        ≤ ses.length := by
    cases xs with
    | none => simp
    | some cur =>
      show (if ses.length < cur.length then cur.take ses.length else cur).length ≤ _
      rcases Nat.lt_or_ge ses.length cur.length with h | h
      · rw [if_pos h]
        simp
      · rw [if_neg (Nat.not_lt.mpr h)]
        omega
  refine ⟨_, rfl, ?_⟩
  rw [sliceLoop_len]
  cases h : ses.isEmpty
  · simp only [if_false, Bool.false_eq_true]
    omega
  · have : ses = [] := List.isEmpty_iff.mp h
    subst this
    simp only [if_true, List.length_nil, List.isEmpty_nil]
    simp only [List.length_nil] at hbase
    omega

theorem assignSlice_shape_array (impl : Impl) (cfg : AssignConfig)
    (recur : ReCall) (fuelS : Nat) (z : GoVal) (xs : Option (List GoVal))
    (zs : GoVal) (ses : List GoVal) (tk sk : String) :
    ∃ out,
      (assignSlice impl cfg recur (fuelS + 1) (.vslice z xs) tk
          (.varray zs ses) sk).target = .vslice z (some out)
      ∧ out.length = ses.length := by
  simp only [assignSlice, indirect]
  have hbase :
      (match xs with
        | none => List.replicate ses.length z
        | some cur => if ses.length < cur.length then cur.take ses.length else cur).length
        ≤ ses.length := by
    cases xs with
    | none => simp
    | some cur =>
      show (if ses.length < cur.length then cur.take ses.length else cur).length ≤ _
      rcases Nat.lt_or_ge ses.length cur.length with h | h
      · rw [if_pos h]
        simp
      · rw [if_neg (Nat.not_lt.mpr h)]
        omega
  refine ⟨_, rfl, ?_⟩
  rw [sliceLoop_len]
  cases h : ses.isEmpty
  · simp only [if_false, Bool.false_eq_true]
    omega
  · have : ses = [] := List.isEmpty_iff.mp h
    subst this
    simp only [if_true, List.length_nil, List.isEmpty_nil]
    simp only [List.length_nil] at hbase
    omega

theorem assign_slice_nil_noop (impl : Impl) (n : Nat) (cfg : AssignConfig)
    (z : GoVal) (xs : Option (List GoVal)) (zs : GoVal) (tk sk : String) :
    (assign impl (n + 1) cfg (.vslice z xs) tk (.vslice zs none) sk).target
        = .vslice z xs
      ∧ (assign impl (n + 1) cfg (.vslice z xs) tk (.vslice zs none) sk).err = none := by
  unfold assign
  cases h : (shouldSkipKey impl cfg tk sk).1
  · cases impl <;>
      (simp only [unwrapIface, h, assignDispatch, assignSlice, indirect,
        if_false, Bool.false_eq_true]
       split
       · simp
       · simp [keysPostlude_target, keysPostlude_err])
  · simp [h]

theorem assign_slice_some_shape (impl : Impl) (n : Nat) (cfg : AssignConfig)
    (z : GoVal) (xs : Option (List GoVal)) (zs : GoVal) (ses : List GoVal)
    (tk sk : String) (hsk : cfg.SkipKeys = []) (hss : cfg.SkipSameValues = false) :
    ∃ out,
      (assign impl (n + 1) cfg (.vslice z xs) tk (.vslice zs (some ses)) sk).target
          = .vslice z (some out)
      ∧ out.length = ses.length := by
  unfold assign
  rw [shouldSkipKey_nil impl cfg tk sk hsk]
  cases impl <;>
    simp only [unwrapIface, hss, Bool.false_and, if_false, Bool.false_eq_true,
      keysPostlude_target, assignDispatch] <;>
    exact assignSlice_shape _ cfg (assign _ n) 2 z xs zs ses tk sk

theorem assign_slice_array_shape (impl : Impl) (n : Nat) (cfg : AssignConfig)
    (z : GoVal) (xs : Option (List GoVal)) (zs : GoVal) (ses : List GoVal)
    (tk sk : String) (hsk : cfg.SkipKeys = []) (hss : cfg.SkipSameValues = false) :
    ∃ out,
      (assign impl (n + 1) cfg (.vslice z xs) tk (.varray zs ses) sk).target
          = .vslice z (some out)
      ∧ out.length = ses.length := by
  unfold assign
  rw [shouldSkipKey_nil impl cfg tk sk hsk]
  cases impl <;>
    simp only [unwrapIface, hss, Bool.false_and, if_false, Bool.false_eq_true,
      keysPostlude_target, assignDispatch] <;>
    exact assignSlice_shape_array _ cfg (assign _ n) 2 z xs zs ses tk sk

end ObjectSpec

namespace ObjectSpec

theorem alookup_upsert_ne (l : List (String × GoVal)) (k k' : String) (v : GoVal)
    (h : k' ≠ k) : alookup (mapUpsert l k' v) k = alookup l k := by
  induction l with
  | nil => simp [mapUpsert, alookup, h]
  | cons e rest ih =>
    obtain ⟨k0, v0⟩ := e
    simp only [mapUpsert]
    by_cases h0 : k0 = k'
    · subst h0
      simp only [beq_self_eq_true, if_true]
      simp [alookup, h]
    · rw [if_neg (by simpa using h0)]
      simp only [alookup]
      by_cases hk : k0 = k
      · subst hk
        simp
      · rw [if_neg (by simpa using hk), if_neg (by simpa using hk)]
        exact ih

theorem alookup_upsert_self (l : List (String × GoVal)) (k : String) (v : GoVal) :
    alookup (mapUpsert l k v) k = some v := by
  induction l with
  | nil => simp [mapUpsert, alookup]
  | cons e rest ih =>
    obtain ⟨k0, v0⟩ := e
    simp only [mapUpsert]
    by_cases h0 : k0 = k
    · subst h0
      simp [alookup]
    · rw [if_neg (by simpa using h0)]
      simp only [alookup]
      rw [if_neg (by simpa using h0)]
      exact ih

theorem mapMapLoop_missing (impl : Impl) (cfg : AssignConfig) (recur : ReCall)
    (tk sk : String) (z : GoVal) :
    ∀ (ses : List (String × GoVal)) (base : List (String × GoVal)) (meta : Meta)
      (errs : List String) (k : String),
      (∀ e ∈ ses, e.1 ≠ k) →
      alookup (mapMapLoop impl cfg recur tk sk z ses base meta errs).1 k
        = alookup base k := by
  intro ses
  induction ses with
  | nil => intro base meta errs k _; simp [mapMapLoop]
  | cons e rest ih =>
    intro base meta errs k hk
    obtain ⟨k0, v0⟩ := e
    have hk0 : k0 ≠ k := hk (k0, v0) (List.mem_cons_self _ _)
    have hrest : ∀ e ∈ rest, e.1 ≠ k := fun e he => hk e (List.mem_cons_of_mem _ he)
    simp only [mapMapLoop]
    split
    · exact ih _ _ _ _ hrest
    · split
      · exact ih _ _ _ _ hrest
      · rw [ih _ _ _ _ hrest, alookup_upsert_ne _ _ _ _ hk0]

theorem mapMapLoop_hit (impl : Impl) (cfg : AssignConfig) (recur : ReCall)
    (tk sk : String) (z : GoVal) :
    ∀ (ses base : List (String × GoVal)) (meta : Meta) (errs : List String)
      (k : String) (v : GoVal),
      cfg.SkipKeys = [] →
      (ses.map Prod.fst).Nodup →
      (k, v) ∈ ses →
      ((recur cfg z (newChild tk .map k) v (newChild sk .map k)).err = none →
        alookup (mapMapLoop impl cfg recur tk sk z ses base meta errs).1 k
          = some (recur cfg z (newChild tk .map k) v (newChild sk .map k)).target)
      ∧ (∀ e, (recur cfg z (newChild tk .map k) v (newChild sk .map k)).err = some e →
        alookup (mapMapLoop impl cfg recur tk sk z ses base meta errs).1 k
          = alookup base k) := by
  intro ses
  induction ses with
  | nil => intro base meta errs k v _ _ hmem; cases hmem
  | cons e rest ih =>
    intro base meta errs k v hskip hnd hmem
    obtain ⟨k0, v0⟩ := e
    have hnd' : (k0 :: rest.map Prod.fst).Nodup := by simpa using hnd
    have hnd0 : k0 ∉ rest.map Prod.fst := (List.nodup_cons.mp hnd').1
    have hndr : (rest.map Prod.fst).Nodup := (List.nodup_cons.mp hnd').2
    simp only [mapMapLoop, shouldSkipKey_nil impl cfg _ _ hskip, if_false,
      Bool.false_eq_true]
    rcases List.mem_cons.mp hmem with heq | hmem'
    · have hk0 : k0 = k := by cases heq; rfl
      have hv0 : v0 = v := by cases heq; rfl
      subst hk0 hv0
      have hkrest : ∀ e ∈ rest, e.1 ≠ k0 := by
        intro e he hcon
        exact hnd0 (hcon ▸ List.mem_map_of_mem Prod.fst he)
      constructor
      · intro herr
        rw [herr]
        rw [mapMapLoop_missing impl cfg recur tk sk z rest _ _ _ k0 hkrest]
        exact alookup_upsert_self _ _ _
      · intro e herr
        rw [herr]
        exact mapMapLoop_missing impl cfg recur tk sk z rest _ _ _ k0 hkrest
    · have hkmem : k ∈ rest.map Prod.fst := List.mem_map_of_mem Prod.fst hmem'
      have hk0 : k0 ≠ k := fun hcon => hnd0 (hcon ▸ hkmem)
      cases herr0 : (recur cfg z (newChild tk .map k0) v0 (newChild sk .map k0)).err with
      | none =>
        constructor
        · intro herr
          exact ((ih _ _ _ k v hskip hndr hmem').1 herr)
        · intro e herr
          rw [(ih _ _ _ k v hskip hndr hmem').2 e herr]
          exact alookup_upsert_ne _ _ _ _ hk0
      | some e0 =>
        constructor
        · intro herr
          exact ((ih _ _ _ k v hskip hndr hmem').1 herr)
        · intro e herr
          exact (ih _ _ _ k v hskip hndr hmem').2 e herr

end ObjectSpec

namespace ObjectSpec

theorem assign_map_nil_noop (impl : Impl) (n : Nat) (cfg : AssignConfig)
    (z : GoVal) (te : Option (List (String × GoVal))) (zs : GoVal) (tk sk : String) :
    (assign impl (n + 1) cfg (.vmap z te) tk (.vmap zs none) sk).target = .vmap z te
      ∧ (assign impl (n + 1) cfg (.vmap z te) tk (.vmap zs none) sk).err = none := by
  unfold assign
  cases h : (shouldSkipKey impl cfg tk sk).1
  · cases impl <;>
      (simp only [unwrapIface, h, assignDispatch, assignMap, assignMapFromMap, indirect,
        if_false, Bool.false_eq_true]
       split
       · simp
       · simp [keysPostlude_target, keysPostlude_err])
  · simp [h]

theorem assign_map_empty (impl : Impl) (n : Nat) (cfg : AssignConfig)
    (z : GoVal) (te : Option (List (String × GoVal))) (zs : GoVal) (tk sk : String)
    (hsk : cfg.SkipKeys = []) (hss : cfg.SkipSameValues = false) :
    (assign impl (n + 1) cfg (.vmap z te) tk (.vmap zs (some [])) sk).target
        = .vmap z (some [])
      ∧ (assign impl (n + 1) cfg (.vmap z te) tk (.vmap zs (some [])) sk).err = none := by
  unfold assign
  rw [shouldSkipKey_nil impl cfg tk sk hsk]
  cases impl <;>
    simp [unwrapIface, hss, keysPostlude_target, keysPostlude_err,
      assignDispatch, assignMap, assignMapFromMap, indirect]

theorem assign_map_retain (impl : Impl) (n : Nat) (cfg : AssignConfig)
    (z : GoVal) (te : Option (List (String × GoVal))) (zs : GoVal)
    (ses : List (String × GoVal)) (tk sk k : String)
    (hsk : cfg.SkipKeys = []) (hss : cfg.SkipSameValues = false)
    (hne : ses ≠ []) (hmiss : ∀ e ∈ ses, e.1 ≠ k) :
    alookup (mapEntriesOf
        (assign impl (n + 1) cfg (.vmap z te) tk (.vmap zs (some ses)) sk).target) k
      = alookup (te.getD []) k := by
  have hlen : (ses.length == 0) = false := by
    simpa using fun hcon => hne (List.length_eq_zero.mp hcon)
  unfold assign
  rw [shouldSkipKey_nil impl cfg tk sk hsk]
  cases impl <;>
    (simp only [unwrapIface, hss, Bool.false_and, if_false, Bool.false_eq_true,
      keysPostlude_target, assignDispatch, assignMap, assignMapFromMap, indirect, hlen]
     rw [show mapEntriesOf (.vmap z (some (mapMapLoop _ cfg (assign _ n) tk sk z ses
        (te.getD []) emptyMeta []).1)) = (mapMapLoop _ cfg (assign _ n) tk sk z ses
        (te.getD []) emptyMeta []).1 from rfl]
     exact mapMapLoop_missing _ cfg (assign _ n) tk sk z ses _ _ _ k hmiss)

end ObjectSpec

namespace ObjectSpec

theorem assign_succ (impl : Impl) (n : Nat) (cfg : AssignConfig) (t : GoVal)
    (tk : String) (s : GoVal) (sk : String) :
    assign impl (n + 1) cfg t tk s sk =
      if (shouldSkipKey impl cfg tk sk).1 then ⟨t, none, (shouldSkipKey impl cfg tk sk).2⟩
      else
        match (match (match impl with | .v1 => unwrapIface s | .v2 => s) with
               | .vptr _ none => GoVal.vnil
               | x => x) with
        | .vnil => ⟨t, none, emptyMeta⟩
        | s2 =>
          if cfg.SkipSameValues && deepEqual t (unwrapIface s2) then
            ⟨t, none, addMetaUnset cfg (addMetaUnused cfg emptyMeta sk) tk⟩
          else
            keysPostlude impl cfg tk
              (assignDispatch impl cfg (assign impl n) n t tk (unwrapIface s2) sk) := by
  conv_lhs => unfold assign

theorem assign_map_hit (impl : Impl) (n : Nat) (cfg : AssignConfig)
    (z : GoVal) (te : Option (List (String × GoVal))) (zs : GoVal)
    (ses : List (String × GoVal)) (tk sk k : String) (v : GoVal)
    (hsk : cfg.SkipKeys = []) (hss : cfg.SkipSameValues = false)
    (hnd : (ses.map Prod.fst).Nodup) (hmem : (k, v) ∈ ses) :
    ((assign impl n cfg z (newChild tk .map k) v (newChild sk .map k)).err = none →
      alookup (mapEntriesOf
          (assign impl (n + 1) cfg (.vmap z te) tk (.vmap zs (some ses)) sk).target) k
        = some (assign impl n cfg z (newChild tk .map k) v (newChild sk .map k)).target)
    ∧ (∀ e,
        (assign impl n cfg z (newChild tk .map k) v (newChild sk .map k)).err = some e →
        alookup (mapEntriesOf
            (assign impl (n + 1) cfg (.vmap z te) tk (.vmap zs (some ses)) sk).target) k
          = alookup (te.getD []) k) := by
  have hne : ses ≠ [] := by
    intro hcon
    rw [hcon] at hmem
    cases hmem
  have hlen : (ses.length == 0) = false := by
    simpa using fun hcon => hne (List.length_eq_zero.mp hcon)
  rw [assign_succ]
  rw [shouldSkipKey_nil impl cfg tk sk hsk]
  cases impl <;>
    (simp only [unwrapIface, hss, Bool.false_and, if_false, Bool.false_eq_true,
      keysPostlude_target, assignDispatch, assignMap, assignMapFromMap, indirect, hlen]
     exact mapMapLoop_hit _ cfg (assign _ n) tk sk z ses (te.getD []) emptyMeta [] k v
       hsk hnd hmem)

end ObjectSpec

namespace ObjectSpec

theorem list_get?_set_ne {α : Type} (l : List α) (j i : Nat) (a : α)
    (h : j ≠ i) : (l.set j a).get? i = l.get? i := by
  induction l generalizing i j with
  | nil => simp
  | cons x xs ih =>
    cases j with
    | zero =>
      cases i with
      | zero => exact absurd rfl h
      | succ i' => simp [List.set]
    | succ j' =>
      cases i with
      | zero => simp [List.set]
      | succ i' =>
        simp only [List.set, List.get?]
        exact ih j' i' (fun hc => h (by rw [hc]))

theorem setPath_fld_decls (j : Nat) (rest : FieldPath) (root nv : GoVal) :
    topDecls (setPath (.fld j :: rest) root nv) = topDecls root := by
  cases root <;> simp only [setPath, topDecls]
  case vstruct d vs =>
    cases h : vs.get? j <;> simp [topDecls]

theorem setPath_fld_topVal_ne (j : Nat) (rest : FieldPath) (root nv : GoVal)
    (i : Nat) (h : j ≠ i) :
    topVal (setPath (.fld j :: rest) root nv) i = topVal root i := by
  cases root <;> simp only [setPath, topVal]
  case vstruct d vs =>
    cases hj : vs.get? j
    · simp [topVal]
    · simp only [topVal]
      exact list_get?_set_ne vs j i _ h

theorem resolveEmbedded_nonanon (q : FLoc) (i : Nat) (fd : FieldDecl)
    (fv0 root : GoVal) (h : fd.anonymous = false) :
    resolveEmbedded q i fd fv0 root = (root, childLoc q i fv0, fv0) := by
  unfold resolveEmbedded
  simp [h]

theorem resolveEmbedded_det (q : FLoc) (i : Nat) (fd : FieldDecl)
    (fv0 root : GoVal) (dv : GoVal) (h : q = .det dv) :
    (resolveEmbedded q i fd fv0 root).1 = root
      ∧ ∃ v, (resolveEmbedded q i fd fv0 root).2.1 = FLoc.det v := by
  subst h
  unfold resolveEmbedded
  split
  · split
    · split
      · split <;> simp [childLoc]
      · simp [childLoc]
    · simp [childLoc]
  · simp [childLoc]

theorem resolveEmbedded_inRoot (q : FLoc) (i : Nat) (fd : FieldDecl)
    (fv0 root : GoVal) (qp : FieldPath) (h : q = .inRoot qp) :
    (∃ sfx, (sfx = [PathStep.fld i] ∨ sfx = [PathStep.fld i, PathStep.deref])
        ∧ (resolveEmbedded q i fd fv0 root).2.1 = FLoc.inRoot (qp ++ sfx))
    ∧ ((resolveEmbedded q i fd fv0 root).1 = root
        ∨ (fd.anonymous = true ∧ ∃ nv, (resolveEmbedded q i fd fv0 root).1
            = setPath (qp ++ [PathStep.fld i]) root nv)) := by
  subst h
  unfold resolveEmbedded
  cases hanon : fd.anonymous
  · refine ⟨⟨[PathStep.fld i], Or.inl rfl, ?_⟩, Or.inl ?_⟩ <;>
      simp [hanon, childLoc]
  · cases fv0 <;>
      try (refine ⟨⟨[PathStep.fld i], Or.inl rfl, ?_⟩, Or.inl ?_⟩ <;>
        (simp [hanon, childLoc]; done))
    case vptr z po =>
      cases hz : isStructProto z
      · refine ⟨⟨[PathStep.fld i], Or.inl rfl, ?_⟩, Or.inl ?_⟩ <;>
          simp [hanon, hz, childLoc]
      · cases po
        · refine ⟨⟨[PathStep.fld i, PathStep.deref], Or.inr rfl, ?_⟩,
            Or.inr ⟨rfl, GoVal.vptr z (some z), ?_⟩⟩ <;> simp [hanon, hz]
        · refine ⟨⟨[PathStep.fld i, PathStep.deref], Or.inr rfl, ?_⟩,
            Or.inl ?_⟩ <;> simp [hanon, hz]

end ObjectSpec

namespace ObjectSpec

/-- Invariant on flattened entries: a live location is rooted at an
exported declared field; for a non-anonymous field it is exactly that
field's own slot, with matching names. -/
def entryOK (d : List FieldDecl) (cfg : AssignConfig) (e : String × FInfo) : Prop :=
  ∀ p, e.2.loc = FLoc.inRoot p →
    ∃ j rest fd, p = PathStep.fld j :: rest ∧ d.get? j = some fd
      ∧ fd.exported = true
      ∧ (fd.anonymous = true
          ∨ (rest = [] ∧ e.1 = fd.name ∧ e.2.actualName = (parseTag cfg fd).1))

/-- Invariant on worklist locations: the root itself, or a live location
rooted at an exported anonymous declared field. -/
def queueOK (d : List FieldDecl) (q : FLoc) : Prop :=
  ∀ p, q = FLoc.inRoot p →
    p = [] ∨ ∃ j rest fd, p = PathStep.fld j :: rest ∧ d.get? j = some fd
      ∧ fd.exported = true ∧ fd.anonymous = true

theorem resolveEmbedded_decls (d : List FieldDecl) (q : FLoc) (i : Nat)
    (fd0 : FieldDecl) (fv0 root : GoVal) (hroot : topDecls root = some d)
    (hq : queueOK d q) (hd0 : q = FLoc.inRoot [] → d.get? i = some fd0) :
    topDecls (resolveEmbedded q i fd0 fv0 root).1 = some d := by
  cases q with
  | det dv =>
    rw [(resolveEmbedded_det _ i fd0 fv0 root dv rfl).1]
    exact hroot
  | inRoot qp =>
    rcases (resolveEmbedded_inRoot _ i fd0 fv0 root qp rfl).2 with he | ⟨_, nv, he⟩
    · rw [he]; exact hroot
    · rw [he]
      cases qp with
      | nil =>
        rw [List.nil_append, setPath_fld_decls]
        exact hroot
      | cons p0 qrest =>
        rcases hq (p0 :: qrest) rfl with hnil | ⟨j0, r0, fdj, hp, _, _, _⟩
        · cases hnil
        · cases hp
          rw [List.cons_append, setPath_fld_decls]
          exact hroot

theorem resolveEmbedded_topVal (d : List FieldDecl) (q : FLoc) (i : Nat)
    (fd0 : FieldDecl) (fv0 root : GoVal) (hexp0 : fd0.exported = true)
    (hq : queueOK d q) (hd0 : q = FLoc.inRoot [] → d.get? i = some fd0) :
    ∀ j fd', d.get? j = some fd' →
      (fd'.anonymous = false ∨ fd'.exported = false) →
      topVal (resolveEmbedded q i fd0 fv0 root).1 j = topVal root j := by
  intro j fd' hj hcond
  cases q with
  | det dv =>
    rw [(resolveEmbedded_det _ i fd0 fv0 root dv rfl).1]
  | inRoot qp =>
    rcases (resolveEmbedded_inRoot _ i fd0 fv0 root qp rfl).2 with he | ⟨hanon, nv, he⟩
    · rw [he]
    · rw [he]
      cases qp with
      | nil =>
        have hi : d.get? i = some fd0 := hd0 rfl
        have hne : i ≠ j := by
          intro hcon
          subst hcon
          rw [hi] at hj
          cases hj
          rcases hcond with hc | hc
          · rw [hanon] at hc; cases hc
          · rw [hexp0] at hc; cases hc
        rw [List.nil_append]
        exact setPath_fld_topVal_ne i [] root nv j hne
      | cons p0 qrest =>
        rcases hq (p0 :: qrest) rfl with hnil | ⟨j0, r0, fdj, hp, hjd, hexp, hano⟩
        · cases hnil
        · cases hp
          have hne : j0 ≠ j := by
            intro hcon
            subst hcon
            rw [hjd] at hj
            cases hj
            rcases hcond with hc | hc
            · rw [hano] at hc; cases hc
            · rw [hexp] at hc; cases hc
          rw [List.cons_append]
          exact setPath_fld_topVal_ne j0 _ root nv j hne

end ObjectSpec

namespace ObjectSpec

theorem resolveEmbedded_locQueue (d : List FieldDecl) (q : FLoc) (i : Nat)
    (fd0 : FieldDecl) (fv0 root : GoVal) (hq : queueOK d q)
    (hd0 : q = FLoc.inRoot [] → d.get? i = some fd0)
    (hexp0 : fd0.exported = true) (hanon0 : fd0.anonymous = true) :
    queueOK d (resolveEmbedded q i fd0 fv0 root).2.1 := by
  cases q with
  | det dv =>
    obtain ⟨-, v, hv⟩ := resolveEmbedded_det _ i fd0 fv0 root dv rfl
    intro p hp
    rw [hv] at hp
    cases hp
  | inRoot qp =>
    obtain ⟨⟨sfx, hsfx, hloc⟩, -⟩ := resolveEmbedded_inRoot _ i fd0 fv0 root qp rfl
    intro p hp
    rw [hloc] at hp
    cases hp
    cases qp with
    | nil =>
      right
      rcases hsfx with h | h <;> subst h
      · exact ⟨i, [], fd0, rfl, hd0 rfl, hexp0, hanon0⟩
      · exact ⟨i, [PathStep.deref], fd0, rfl, hd0 rfl, hexp0, hanon0⟩
    | cons p0 qrest =>
      rcases hq (p0 :: qrest) rfl with hnil | ⟨j0, r0, fdj, hp0, hjd, hje, hja⟩
      · cases hnil
      · cases hp0
        right
        exact ⟨j0, qrest ++ sfx, fdj, by simp, hjd, hje, hja⟩

theorem resolveEmbedded_locEntry (d : List FieldDecl) (cfg : AssignConfig)
    (q : FLoc) (i : Nat) (fd0 : FieldDecl) (fv0 root : GoVal)
    (hq : queueOK d q) (hd0 : q = FLoc.inRoot [] → d.get? i = some fd0)
    (hexp0 : fd0.exported = true) :
    entryOK d cfg (fd0.name,
      { displayName := fd0.name, actualName := (parseTag cfg fd0).1,
        omitempty := (parseTag cfg fd0).2.1, decl := fd0,
        loc := (resolveEmbedded q i fd0 fv0 root).2.1 }) := by
  cases hanon : fd0.anonymous
  · rw [resolveEmbedded_nonanon q i fd0 fv0 root hanon]
    cases q with
    | det dv =>
      intro p hp
      cases hp
    | inRoot qp =>
      intro p hp
      simp only [childLoc] at hp
      cases hp
      cases qp with
      | nil =>
        exact ⟨i, [], fd0, rfl, hd0 rfl, hexp0, Or.inr ⟨rfl, rfl, rfl⟩⟩
      | cons p0 qrest =>
        rcases hq (p0 :: qrest) rfl with hnil | ⟨j0, r0, fdj, hp0, hjd, hje, hja⟩
        · cases hnil
        · cases hp0
          exact ⟨j0, qrest ++ [PathStep.fld i], fdj, by simp, hjd, hje, Or.inl hja⟩
  · cases q with
    | det dv =>
      obtain ⟨-, v, hv⟩ := resolveEmbedded_det _ i fd0 fv0 root dv rfl
      intro p hp
      rw [hv] at hp
      cases hp
    | inRoot qp =>
      obtain ⟨⟨sfx, hsfx, hloc⟩, -⟩ := resolveEmbedded_inRoot _ i fd0 fv0 root qp rfl
      intro p hp
      rw [hloc] at hp
      cases hp
      cases qp with
      | nil =>
        rcases hsfx with h | h <;> subst h
        · exact ⟨i, [], fd0, rfl, hd0 rfl, hexp0, Or.inl hanon⟩
        · exact ⟨i, [PathStep.deref], fd0, rfl, hd0 rfl, hexp0, Or.inl hanon⟩
      | cons p0 qrest =>
        rcases hq (p0 :: qrest) rfl with hnil | ⟨j0, r0, fdj, hp0, hjd, hje, hja⟩
        · cases hnil
        · cases hp0
          exact ⟨j0, qrest ++ sfx, fdj, by simp, hjd, hje, Or.inl hja⟩

end ObjectSpec

namespace ObjectSpec

theorem flattenFields_frame (cfg : AssignConfig) (d : List FieldDecl) (q : FLoc)
    (hq : queueOK d q) :
    ∀ (fl : List (FieldDecl × GoVal)) (i : Nat) (root : GoVal)
      (qAdd : List FLoc) (acc : List (String × FInfo)),
      topDecls root = some d →
      (q = FLoc.inRoot [] → ∀ k fdv, fl.get? k = some fdv → d.get? (i + k) = some fdv.1) →
      (∀ l ∈ qAdd, queueOK d l) →
      (∀ e ∈ acc, entryOK d cfg e) →
      topDecls (flattenFields cfg q fl i root qAdd acc).1 = some d
      ∧ (∀ j fd, d.get? j = some fd →
          (fd.anonymous = false ∨ fd.exported = false) →
          topVal (flattenFields cfg q fl i root qAdd acc).1 j = topVal root j)
      ∧ (∀ l ∈ (flattenFields cfg q fl i root qAdd acc).2.1, queueOK d l)
      ∧ (∀ e ∈ (flattenFields cfg q fl i root qAdd acc).2.2, entryOK d cfg e) := by
  intro fl
  induction fl with
  | nil =>
    intro i root qAdd acc hroot _ hqadd hacc
    exact ⟨hroot, fun _ _ _ _ => rfl, hqadd, hacc⟩
  | cons hd rest ih =>
    obtain ⟨fd0, fv0⟩ := hd
    intro i root qAdd acc hroot HQ hqadd hacc
    have HQ' : q = FLoc.inRoot [] →
        ∀ k fdv, rest.get? k = some fdv → d.get? (i + 1 + k) = some fdv.1 := by
      intro hqe k fdv hget
      have h := HQ hqe (k + 1) fdv (by simpa using hget)
      have harith : i + (k + 1) = i + 1 + k := by omega
      rwa [harith] at h
    have hd0 : q = FLoc.inRoot [] → d.get? i = some fd0 := by
      intro hqe
      simpa using HQ hqe 0 (fd0, fv0) rfl
    simp only [flattenFields]
    split
    · exact ih (i + 1) root qAdd acc hroot HQ' hqadd hacc
    · split
      · exact ih (i + 1) root qAdd acc hroot HQ' hqadd hacc
      · split
        · exact ih (i + 1) root qAdd acc hroot HQ' hqadd hacc
        · -- main branch
          rename_i hexpne _ _
          have hexp0 : fd0.exported = true := by
            revert hexpne
            cases fd0.exported <;> simp
          have hroot1 : topDecls (resolveEmbedded q i fd0 fv0 root).1 = some d :=
            resolveEmbedded_decls d q i fd0 fv0 root hroot hq hd0
          have hvals1 : ∀ j fd', d.get? j = some fd' →
              (fd'.anonymous = false ∨ fd'.exported = false) →
              topVal (resolveEmbedded q i fd0 fv0 root).1 j = topVal root j :=
            resolveEmbedded_topVal d q i fd0 fv0 root hexp0 hq hd0
          split
          · -- anonymous embedded record: pushed on the queue
            rename_i hanonst
            have hanon0 : fd0.anonymous = true := by
              revert hanonst
              cases fd0.anonymous <;> simp
            have hqadd' : ∀ l ∈ qAdd ++ [(resolveEmbedded q i fd0 fv0 root).2.1],
                queueOK d l := by
              intro l hl
              rcases List.mem_append.mp hl with hl | hl
              · exact hqadd l hl
              · rcases List.mem_singleton.mp hl with rfl
                exact resolveEmbedded_locQueue d q i fd0 fv0 root hq hd0 hexp0 hanon0
            obtain ⟨c1, c2, c3, c4⟩ := ih (i + 1) (resolveEmbedded q i fd0 fv0 root).1
              (qAdd ++ [(resolveEmbedded q i fd0 fv0 root).2.1]) acc hroot1 HQ' hqadd' hacc
            exact ⟨c1, fun j fd' hj hc => (c2 j fd' hj hc).trans (hvals1 j fd' hj hc),
              c3, c4⟩
          · split
            · -- name collision: dropped
              obtain ⟨c1, c2, c3, c4⟩ := ih (i + 1) (resolveEmbedded q i fd0 fv0 root).1
                qAdd acc hroot1 HQ' hqadd hacc
              exact ⟨c1, fun j fd' hj hc => (c2 j fd' hj hc).trans (hvals1 j fd' hj hc),
                c3, c4⟩
            · -- new entry
              have hacc' : ∀ e ∈ acc ++ [(fd0.name,
                  { displayName := fd0.name, actualName := (parseTag cfg fd0).1,
                    omitempty := (parseTag cfg fd0).2.1, decl := fd0,
                    loc := (resolveEmbedded q i fd0 fv0 root).2.1 })],
                  entryOK d cfg e := by
                intro e he
                rcases List.mem_append.mp he with he | he
                · exact hacc e he
                · rcases List.mem_singleton.mp he with rfl
                  exact resolveEmbedded_locEntry d cfg q i fd0 fv0 root hq hd0 hexp0
              obtain ⟨c1, c2, c3, c4⟩ := ih (i + 1) (resolveEmbedded q i fd0 fv0 root).1
                qAdd (acc ++ [_]) hroot1 HQ' hqadd hacc'
              exact ⟨c1, fun j fd' hj hc => (c2 j fd' hj hc).trans (hvals1 j fd' hj hc),
                c3, c4⟩

end ObjectSpec

namespace ObjectSpec

theorem flattenLoop_frame (cfg : AssignConfig) (d : List FieldDecl) :
    ∀ (n : Nat) (root : GoVal) (qs : List FLoc) (acc : List (String × FInfo)),
      topDecls root = some d →
      (∀ l ∈ qs, queueOK d l) →
      (∀ e ∈ acc, entryOK d cfg e) →
      topDecls (flattenLoop cfg n root qs acc).1 = some d
      ∧ (∀ j fd, d.get? j = some fd →
          (fd.anonymous = false ∨ fd.exported = false) →
          topVal (flattenLoop cfg n root qs acc).1 j = topVal root j)
      ∧ (∀ e ∈ (flattenLoop cfg n root qs acc).2, entryOK d cfg e) := by
  intro n
  induction n with
  | zero =>
    intro root qs acc hroot _ hacc
    exact ⟨hroot, fun _ _ _ _ => rfl, hacc⟩
  | succ m ih =>
    intro root qs acc hroot hqs hacc
    cases qs with
    | nil => exact ⟨hroot, fun _ _ _ _ => rfl, hacc⟩
    | cons q qrest =>
      have hq : queueOK d q := hqs q (List.mem_cons_self q qrest)
      have hqrest : ∀ l ∈ qrest, queueOK d l :=
        fun l hl => hqs l (List.mem_cons_of_mem q hl)
      simp only [flattenLoop]
      cases hrd : readLoc root q with
      | vstruct d' vs =>
        have HQ : q = FLoc.inRoot [] →
            ∀ k fdv, (d'.zip vs).get? k = some fdv → d.get? (0 + k) = some fdv.1 := by
          intro hqe k fdv hget
          subst hqe
          obtain ⟨da, va⟩ := fdv
          have hz := (List.get?_zip_eq_some _ _ _ _).mp hget
          have hroot' : root = GoVal.vstruct d' vs := by
            cases root <;> simp [readLoc, getPath] at hrd
            rename_i a b
            obtain ⟨h1, h2⟩ := hrd
            rw [h1, h2]
          rw [hroot'] at hroot
          simp [topDecls] at hroot
          rw [Nat.zero_add, ← hroot]
          exact hz.1
        obtain ⟨f1, f2, f3, f4⟩ :=
          flattenFields_frame cfg d q hq (d'.zip vs) 0 root [] acc hroot HQ
            (fun l hl => absurd hl (List.not_mem_nil l)) hacc
        have hqall : ∀ l ∈ qrest ++ (flattenFields cfg q (d'.zip vs) 0 root [] acc).2.1,
            queueOK d l := by
          intro l hl
          rcases List.mem_append.mp hl with hl | hl
          · exact hqrest l hl
          · exact f3 l hl
        obtain ⟨c1, c2, c3⟩ := ih (flattenFields cfg q (d'.zip vs) 0 root [] acc).1
          (qrest ++ (flattenFields cfg q (d'.zip vs) 0 root [] acc).2.1)
          (flattenFields cfg q (d'.zip vs) 0 root [] acc).2.2 f1 hqall f4
        exact ⟨c1, fun j fd hj hc => (c2 j fd hj hc).trans (f2 j fd hj hc), c3⟩
      | vnil => exact ih root qrest acc hroot hqrest hacc
      | vbool b => exact ih root qrest acc hroot hqrest hacc
      | vint i => exact ih root qrest acc hroot hqrest hacc
      | vuint u => exact ih root qrest acc hroot hqrest hacc
      | vfloat f => exact ih root qrest acc hroot hqrest hacc
      | vstring s => exact ih root qrest acc hroot hqrest hacc
      | vmap z es => exact ih root qrest acc hroot hqrest hacc
      | vptr z w => exact ih root qrest acc hroot hqrest hacc
      | vslice z xs => exact ih root qrest acc hroot hqrest hacc
      | varray z xs => exact ih root qrest acc hroot hqrest hacc
      | viface w => exact ih root qrest acc hroot hqrest hacc
      | vfunc sig f => exact ih root qrest acc hroot hqrest hacc

theorem flattenStruct_frame (cfg : AssignConfig) (settable : Bool) (fuel : Nat)
    (d : List FieldDecl) (vs : List GoVal) :
    topDecls (flattenStruct cfg settable fuel (.vstruct d vs)).1 = some d
    ∧ (∀ j fd, d.get? j = some fd →
        (fd.anonymous = false ∨ fd.exported = false) →
        topVal (flattenStruct cfg settable fuel (.vstruct d vs)).1 j
          = topVal (GoVal.vstruct d vs) j)
    ∧ (∀ e ∈ (flattenStruct cfg settable fuel (.vstruct d vs)).2, entryOK d cfg e) := by
  refine flattenLoop_frame cfg d fuel (.vstruct d vs) _ [] rfl ?_ ?_
  · intro l hl
    rcases List.mem_singleton.mp hl with rfl
    cases settable <;> intro p hp
    · cases hp
    · simp [FLoc.inRoot.injEq] at hp
      exact Or.inl hp
  · intro e he
    exact absurd he (List.not_mem_nil e)

end ObjectSpec

namespace ObjectSpec

theorem writeLoc_unexported (d : List FieldDecl) (cfg : AssignConfig)
    (e : String × FInfo) (he : entryOK d cfg e) (root nv : GoVal)
    (j : Nat) (fd : FieldDecl) (hj : d.get? j = some fd)
    (hexp : fd.exported = false) :
    topDecls (writeLoc root e.2.loc nv) = topDecls root
    ∧ topVal (writeLoc root e.2.loc nv) j = topVal root j := by
  cases hl : e.2.loc with
  | det v => exact ⟨rfl, rfl⟩
  | inRoot p =>
    obtain ⟨j', rest, fd', hp, hj', hexp', -⟩ := he p hl
    have hne : j' ≠ j := by
      intro h
      rw [h, hj] at hj'
      rw [(Option.some.injEq _ _).mp hj'] at hexp
      rw [hexp'] at hexp
      cases hexp
    subst hp
    exact ⟨setPath_fld_decls j' rest root nv, setPath_fld_topVal_ne j' rest root nv j hne⟩

theorem sfmLoop_unexported (impl : Impl) (cfg : AssignConfig) (recur : ReCall)
    (tk sk : String) (sentries : List (String × GoVal))
    (d : List FieldDecl) (j : Nat) (fd : FieldDecl)
    (hj : d.get? j = some fd) (hexp : fd.exported = false) :
    ∀ (entries : List (String × FInfo)) (root : GoVal) (meta : Meta)
      (errs processed : List String),
      topDecls root = some d →
      (∀ e ∈ entries, entryOK d cfg e) →
      topDecls (sfmLoop impl cfg recur tk sk sentries entries root meta errs processed).1 = some d
      ∧ topVal (sfmLoop impl cfg recur tk sk sentries entries root meta errs processed).1 j
          = topVal root j := by
  intro entries
  induction entries with
  | nil =>
    intro root meta errs processed hroot _
    exact ⟨hroot, rfl⟩
  | cons e rest ih =>
    obtain ⟨nm, tf⟩ := e
    intro root meta errs processed hroot hok
    have hok0 : entryOK d cfg (nm, tf) := hok _ (List.mem_cons_self _ rest)
    have hokr : ∀ e ∈ rest, entryOK d cfg e :=
      fun e he => hok e (List.mem_cons_of_mem _ he)
    simp only [sfmLoop]
    cases alookup sentries tf.actualName with
    | none => exact ih root _ errs processed hroot hokr
    | some v =>
      dsimp only
      by_cases hs : (shouldSkipKey impl cfg (newChild tk PKind.strct tf.displayName)
          (newChild sk PKind.map tf.actualName)).1 = true
      · rw [if_pos hs]
        exact ih root _ errs processed hroot hokr
      · rw [if_neg hs]
        by_cases hc : tf.canSet = false
        · rw [if_pos hc]
          exact ih root _ errs processed hroot hokr
        · rw [if_neg hc]
          obtain ⟨w1, w2⟩ := writeLoc_unexported d cfg (nm, tf) hok0 root
            (recur cfg (readLoc root tf.loc)
              (newChild tk PKind.strct tf.displayName) v
              (newChild sk PKind.map tf.actualName)).target j fd hj hexp
          obtain ⟨c1, c2⟩ := ih (writeLoc root tf.loc _) _ _ _ (w1.trans hroot) hokr
          exact ⟨c1, c2.trans w2⟩

end ObjectSpec

namespace ObjectSpec

theorem ssLoop_unexported (impl : Impl) (cfg : AssignConfig) (recur : ReCall)
    (tk sk : String) (sfields : List (String × FInfo)) (sroot : GoVal)
    (d : List FieldDecl) (j : Nat) (fd : FieldDecl)
    (hj : d.get? j = some fd) (hexp : fd.exported = false) :
    ∀ (entries : List (String × FInfo)) (troot : GoVal) (meta : Meta)
      (errs consumed : List String),
      topDecls troot = some d →
      (∀ e ∈ entries, entryOK d cfg e) →
      topDecls (ssLoop impl cfg recur tk sk sfields sroot entries troot meta errs consumed).1 = some d
      ∧ topVal (ssLoop impl cfg recur tk sk sfields sroot entries troot meta errs consumed).1 j
          = topVal troot j := by
  intro entries
  induction entries with
  | nil =>
    intro troot meta errs consumed hroot _
    exact ⟨hroot, rfl⟩
  | cons e rest ih =>
    obtain ⟨nm, tf⟩ := e
    intro troot meta errs consumed hroot hok
    have hok0 : entryOK d cfg (nm, tf) := hok _ (List.mem_cons_self _ rest)
    have hokr : ∀ e ∈ rest, entryOK d cfg e :=
      fun e he => hok e (List.mem_cons_of_mem _ he)
    simp only [ssLoop]
    cases alookup sfields nm with
    | none => exact ih troot _ errs consumed hroot hokr
    | some sf =>
      dsimp only
      by_cases hs : (shouldSkipKey impl cfg (newChild tk PKind.strct tf.displayName)
          (newChild sk PKind.strct sf.displayName)).1 = true
      · rw [if_pos hs]
        exact ih troot _ errs consumed hroot hokr
      · rw [if_neg hs]
        by_cases hc : tf.canSet = false
        · rw [if_pos hc]
          exact ih troot _ errs consumed hroot hokr
        · rw [if_neg hc]
          obtain ⟨w1, w2⟩ := writeLoc_unexported d cfg (nm, tf) hok0 troot
            (recur cfg (readLoc troot tf.loc)
              (newChild tk PKind.strct tf.displayName)
              (readLoc sroot sf.loc)
              (newChild sk PKind.strct sf.displayName)).target j fd hj hexp
          obtain ⟨c1, c2⟩ := ih (writeLoc troot tf.loc _) _ _ _ (w1.trans hroot) hokr
          exact ⟨c1, c2.trans w2⟩

end ObjectSpec

namespace ObjectSpec

theorem assignStructFromMap_unexported (impl : Impl) (cfg : AssignConfig)
    (recur : ReCall) (flatFuel : Nat) (d : List FieldDecl) (vs : List GoVal)
    (tk sk : String) (sentries : List (String × GoVal))
    (j : Nat) (fd : FieldDecl) (hj : d.get? j = some fd)
    (hexp : fd.exported = false) :
    topVal (assignStructFromMap impl cfg recur flatFuel
        (.vstruct d vs) tk sentries sk).target j
      = topVal (GoVal.vstruct d vs) j := by
  obtain ⟨f1, f2, f3⟩ := flattenStruct_frame cfg true flatFuel d vs
  obtain ⟨c1, c2⟩ := sfmLoop_unexported impl cfg recur tk sk sentries d j fd hj hexp
    (flattenStruct cfg true flatFuel (.vstruct d vs)).2
    (flattenStruct cfg true flatFuel (.vstruct d vs)).1
    emptyMeta [] [] f1 f3
  exact c2.trans (f2 j fd hj (Or.inr hexp))

theorem assignStructFromStruct_unexported (impl : Impl) (cfg : AssignConfig)
    (recur : ReCall) (flatFuel : Nat) (d : List FieldDecl) (vs : List GoVal)
    (tk sk : String) (sv : GoVal)
    (j : Nat) (fd : FieldDecl) (hj : d.get? j = some fd)
    (hexp : fd.exported = false) :
    topVal (assignStructFromStruct impl cfg recur flatFuel
        (.vstruct d vs) tk sv sk).target j
      = topVal (GoVal.vstruct d vs) j := by
  obtain ⟨f1, f2, f3⟩ := flattenStruct_frame cfg true flatFuel d vs
  obtain ⟨c1, c2⟩ := ssLoop_unexported impl cfg recur tk sk
    (flattenStruct cfg false flatFuel sv).2
    (flattenStruct cfg false flatFuel sv).1 d j fd hj hexp
    (flattenStruct cfg true flatFuel (.vstruct d vs)).2
    (flattenStruct cfg true flatFuel (.vstruct d vs)).1
    emptyMeta [] [] f1 f3
  exact c2.trans (f2 j fd hj (Or.inr hexp))

end ObjectSpec

namespace ObjectSpec

theorem flattenFields_exported (cfg : AssignConfig) (q : FLoc) :
    ∀ (fl : List (FieldDecl × GoVal)) (i : Nat) (root : GoVal)
      (qAdd : List FLoc) (acc : List (String × FInfo)),
      (∀ e ∈ acc, e.2.decl.exported = true) →
      ∀ e ∈ (flattenFields cfg q fl i root qAdd acc).2.2, e.2.decl.exported = true := by
  intro fl
  induction fl with
  | nil => intro i root qAdd acc hacc; exact hacc
  | cons hd rest ih =>
    obtain ⟨fd0, fv0⟩ := hd
    intro i root qAdd acc hacc
    simp only [flattenFields]
    split
    · exact ih (i + 1) root qAdd acc hacc
    · split
      · exact ih (i + 1) root qAdd acc hacc
      · split
        · exact ih (i + 1) root qAdd acc hacc
        · rename_i hexpne _ _
          have hexp0 : fd0.exported = true := by
            revert hexpne
            cases fd0.exported <;> simp
          split
          · exact ih (i + 1) _ _ acc hacc
          · split
            · exact ih (i + 1) _ qAdd acc hacc
            · refine ih (i + 1) _ qAdd _ ?_
              intro e he
              rcases List.mem_append.mp he with he | he
              · exact hacc e he
              · rcases List.mem_singleton.mp he with rfl
                exact hexp0

theorem flattenLoop_exported (cfg : AssignConfig) :
    ∀ (n : Nat) (root : GoVal) (qs : List FLoc) (acc : List (String × FInfo)),
      (∀ e ∈ acc, e.2.decl.exported = true) →
      ∀ e ∈ (flattenLoop cfg n root qs acc).2, e.2.decl.exported = true := by
  intro n
  induction n with
  | zero => intro root qs acc hacc; exact hacc
  | succ m ih =>
    intro root qs acc hacc
    cases qs with
    | nil => exact hacc
    | cons q qrest =>
      simp only [flattenLoop]
      cases readLoc root q with
      | vstruct d' vs =>
        exact ih _ _ _ (flattenFields_exported cfg q (d'.zip vs) 0 root [] acc hacc)
      | vnil => exact ih root qrest acc hacc
      | vbool b => exact ih root qrest acc hacc
      | vint i => exact ih root qrest acc hacc
      | vuint u => exact ih root qrest acc hacc
      | vfloat f => exact ih root qrest acc hacc
      | vstring s => exact ih root qrest acc hacc
      | vmap z es => exact ih root qrest acc hacc
      | vptr z w => exact ih root qrest acc hacc
      | vslice z xs => exact ih root qrest acc hacc
      | varray z xs => exact ih root qrest acc hacc
      | viface w => exact ih root qrest acc hacc
      | vfunc sig f => exact ih root qrest acc hacc

theorem flattenStruct_exported (cfg : AssignConfig) (settable : Bool)
    (fuel : Nat) (val : GoVal) :
    ∀ e ∈ (flattenStruct cfg settable fuel val).2, e.2.decl.exported = true :=
  flattenLoop_exported cfg fuel val _ [] (fun e he => absurd he (List.not_mem_nil e))

theorem mfsLoop_keys (impl : Impl) (cfg : AssignConfig)
    (nest : GoVal → String → GoVal → String → ARes) (tk sk : String)
    (z : GoVal) (sroot : GoVal) (k : String) :
    ∀ (entries : List (String × FInfo)) (base : List (String × GoVal)) (meta : Meta),
      (∀ e ∈ entries, e.2.actualName ≠ k) →
      alookup base k = none →
      alookup (mfsLoop impl cfg nest tk sk z sroot entries base meta).1 k = none := by
  intro entries
  induction entries with
  | nil => intro base meta _ hbase; exact hbase
  | cons e rest ih =>
    obtain ⟨nm, sf⟩ := e
    intro base meta hne hbase
    have hne0 : sf.actualName ≠ k := hne _ (List.mem_cons_self _ rest)
    have hner : ∀ e ∈ rest, e.2.actualName ≠ k :=
      fun e he => hne e (List.mem_cons_of_mem _ he)
    simp only [mfsLoop]
    by_cases h1 : (!(assignableTo (readLoc sroot sf.loc) z)) = true
    · rw [if_pos h1]
      exact hbase
    · rw [if_neg h1]
      by_cases h2 : (shouldSkipKey impl cfg
          (newChild tk PKind.map sf.actualName)
          (newChild sk PKind.strct sf.displayName)).1 = true
      · rw [if_pos h2]
        exact ih base _ hner hbase
      · rw [if_neg h2]
        cases hfv : readLoc sroot sf.loc with
        | vstruct d' vs =>
          by_cases h3 : assignableTo (.vstruct d' vs) z = true
          · rw [if_pos h3]
            exact ih _ _ hner (by rw [alookup_upsert_ne base k sf.actualName _ hne0]; exact hbase)
          · rw [if_neg h3]
            by_cases h4 : (!(assignableTo (GoVal.vmap (.viface none) (some [])) z)) = true
            · rw [if_pos h4]
              exact ih base _ hner hbase
            · rw [if_neg h4]
              cases (nest (GoVal.vmap (.viface none) (some []))
                  (newChild tk PKind.map sf.actualName) (.vstruct d' vs)
                  (newChild sk PKind.strct sf.displayName)).err with
              | some er => exact hbase
              | none =>
                exact ih _ _ hner
                  (by rw [alookup_upsert_ne base k sf.actualName _ hne0]; exact hbase)
        | vnil =>
          by_cases h3 : (sf.omitempty && isEmptyValue GoVal.vnil) = true
          · rw [if_pos h3]
            exact ih base _ hner hbase
          · rw [if_neg h3]
            exact ih _ _ hner (by rw [alookup_upsert_ne base k sf.actualName _ hne0]; exact hbase)
        | vbool b =>
          by_cases h3 : (sf.omitempty && isEmptyValue (GoVal.vbool b)) = true
          · rw [if_pos h3]
            exact ih base _ hner hbase
          · rw [if_neg h3]
            exact ih _ _ hner (by rw [alookup_upsert_ne base k sf.actualName _ hne0]; exact hbase)
        | vint i =>
          by_cases h3 : (sf.omitempty && isEmptyValue (GoVal.vint i)) = true
          · rw [if_pos h3]
            exact ih base _ hner hbase
          · rw [if_neg h3]
            exact ih _ _ hner (by rw [alookup_upsert_ne base k sf.actualName _ hne0]; exact hbase)
        | vuint u =>
          by_cases h3 : (sf.omitempty && isEmptyValue (GoVal.vuint u)) = true
          · rw [if_pos h3]
            exact ih base _ hner hbase
          · rw [if_neg h3]
            exact ih _ _ hner (by rw [alookup_upsert_ne base k sf.actualName _ hne0]; exact hbase)
        | vfloat f =>
          by_cases h3 : (sf.omitempty && isEmptyValue (GoVal.vfloat f)) = true
          · rw [if_pos h3]
            exact ih base _ hner hbase
          · rw [if_neg h3]
            exact ih _ _ hner (by rw [alookup_upsert_ne base k sf.actualName _ hne0]; exact hbase)
        | vstring s =>
          by_cases h3 : (sf.omitempty && isEmptyValue (GoVal.vstring s)) = true
          · rw [if_pos h3]
            exact ih base _ hner hbase
          · rw [if_neg h3]
            exact ih _ _ hner (by rw [alookup_upsert_ne base k sf.actualName _ hne0]; exact hbase)
        | vmap zm es =>
          by_cases h3 : (sf.omitempty && isEmptyValue (GoVal.vmap zm es)) = true
          · rw [if_pos h3]
            exact ih base _ hner hbase
          · rw [if_neg h3]
            exact ih _ _ hner (by rw [alookup_upsert_ne base k sf.actualName _ hne0]; exact hbase)
        | vptr zp w =>
          by_cases h3 : (sf.omitempty && isEmptyValue (GoVal.vptr zp w)) = true
          · rw [if_pos h3]
            exact ih base _ hner hbase
          · rw [if_neg h3]
            exact ih _ _ hner (by rw [alookup_upsert_ne base k sf.actualName _ hne0]; exact hbase)
        | vslice zs xs =>
          by_cases h3 : (sf.omitempty && isEmptyValue (GoVal.vslice zs xs)) = true
          · rw [if_pos h3]
            exact ih base _ hner hbase
          · rw [if_neg h3]
            exact ih _ _ hner (by rw [alookup_upsert_ne base k sf.actualName _ hne0]; exact hbase)
        | varray za xs =>
          by_cases h3 : (sf.omitempty && isEmptyValue (GoVal.varray za xs)) = true
          · rw [if_pos h3]
            exact ih base _ hner hbase
          · rw [if_neg h3]
            exact ih _ _ hner (by rw [alookup_upsert_ne base k sf.actualName _ hne0]; exact hbase)
        | viface w =>
          by_cases h3 : (sf.omitempty && isEmptyValue (GoVal.viface w)) = true
          · rw [if_pos h3]
            exact ih base _ hner hbase
          · rw [if_neg h3]
            exact ih _ _ hner (by rw [alookup_upsert_ne base k sf.actualName _ hne0]; exact hbase)
        | vfunc sig f =>
          by_cases h3 : (sf.omitempty && isEmptyValue (GoVal.vfunc sig f)) = true
          · rw [if_pos h3]
            exact ih base _ hner hbase
          · rw [if_neg h3]
            exact ih _ _ hner (by rw [alookup_upsert_ne base k sf.actualName _ hne0]; exact hbase)

end ObjectSpec

namespace ObjectSpec

theorem assignMapFromStruct_keys (impl : Impl) (cfg : AssignConfig)
    (fuelN : Nat) (z : GoVal) (base : List (String × GoVal))
    (tk sk : String) (sv : GoVal) (k : String)
    (hflat : ∀ e ∈ (flattenStruct cfg false (fuelN + 1) sv).2, e.2.actualName ≠ k)
    (hbase : alookup base k = none)
    (hsv : ∃ d vs, sv = GoVal.vstruct d vs) :
    ∃ out, (assignMapFromStruct impl cfg (fuelN + 1)
        (.vmap z (some base)) tk sv sk).target = .vmap z (some out)
      ∧ alookup out k = none := by
  obtain ⟨d, vs, rfl⟩ := hsv
  refine ⟨_, rfl, ?_⟩
  exact mfsLoop_keys impl cfg _ tk sk z
    (flattenStruct cfg false (fuelN + 1) (.vstruct d vs)).1 k
    (flattenStruct cfg false (fuelN + 1) (.vstruct d vs)).2 base emptyMeta hflat hbase

end ObjectSpec

namespace ObjectSpec

/-- **C10.** During struct flattening, unexported fields are filtered out
before any entry is produced, so: (i) every flattened entry's declaration
is exported; (ii) a record target assigned from a mapping keeps the value
of every unexported top-level field; (iii) likewise when assigned from
another record; (iv) a mapping target assigned from a record never gains a
key outside the flattened (all-exported) fields' external names. -/
theorem claim10_unexported_fields_invisible :
    (∀ (cfg : AssignConfig) (settable : Bool) (fuel : Nat) (val : GoVal),
        ∀ e ∈ (flattenStruct cfg settable fuel val).2, e.2.decl.exported = true)
    ∧ (∀ (impl : Impl) (cfg : AssignConfig) (recur : ReCall) (flatFuel : Nat)
        (d : List FieldDecl) (vs : List GoVal) (tk sk : String)
        (sentries : List (String × GoVal)) (j : Nat) (fd : FieldDecl),
        d.get? j = some fd → fd.exported = false →
        topVal (assignStructFromMap impl cfg recur flatFuel
            (.vstruct d vs) tk sentries sk).target j
          = topVal (GoVal.vstruct d vs) j)
    ∧ (∀ (impl : Impl) (cfg : AssignConfig) (recur : ReCall) (flatFuel : Nat)
        (d : List FieldDecl) (vs : List GoVal) (tk sk : String) (sv : GoVal)
        (j : Nat) (fd : FieldDecl),
        d.get? j = some fd → fd.exported = false →
        topVal (assignStructFromStruct impl cfg recur flatFuel
            (.vstruct d vs) tk sv sk).target j
          = topVal (GoVal.vstruct d vs) j)
    ∧ (∀ (impl : Impl) (cfg : AssignConfig) (fuelN : Nat) (z : GoVal)
        (base : List (String × GoVal)) (tk sk k : String)
        (d : List FieldDecl) (vs : List GoVal),
        (∀ e ∈ (flattenStruct cfg false (fuelN + 1) (GoVal.vstruct d vs)).2,
            e.2.actualName ≠ k) →
        alookup base k = none →
        ∃ out, (assignMapFromStruct impl cfg (fuelN + 1)
            (.vmap z (some base)) tk (GoVal.vstruct d vs) sk).target
              = .vmap z (some out)
          ∧ alookup out k = none) :=
  ⟨flattenStruct_exported,
   fun impl cfg recur flatFuel d vs tk sk sentries j fd hj hexp =>
     assignStructFromMap_unexported impl cfg recur flatFuel d vs tk sk sentries j fd hj hexp,
   fun impl cfg recur flatFuel d vs tk sk sv j fd hj hexp =>
     assignStructFromStruct_unexported impl cfg recur flatFuel d vs tk sk sv j fd hj hexp,
   fun impl cfg fuelN z base tk sk k d vs hflat hbase =>
     assignMapFromStruct_keys impl cfg fuelN z base tk sk (.vstruct d vs) k hflat hbase
       ⟨d, vs, rfl⟩⟩

/-- Witness for C10 at a concrete unexported field `x`. -/
theorem claim10_unexported_fields_invisible_witness :
    ([{ name := "x", exported := false }] : List FieldDecl).get? 0
        = some { name := "x", exported := false }
    ∧ topVal (assignStructFromMap .v1 {} (fun _ t _ _ _ => ⟨t, none, emptyMeta⟩) 3
        (.vstruct [{ name := "x", exported := false }] [.vint 5]) "T"
        [("x", .vint 9)] "S").target 0
      = topVal (GoVal.vstruct [{ name := "x", exported := false }] [.vint 5]) 0
    ∧ topVal (assignStructFromStruct .v1 {} (fun _ t _ _ _ => ⟨t, none, emptyMeta⟩) 3
        (.vstruct [{ name := "x", exported := false }] [.vint 5]) "T"
        (.vstruct [{ name := "x", exported := false }] [.vint 7]) "S").target 0
      = topVal (GoVal.vstruct [{ name := "x", exported := false }] [.vint 5]) 0
    ∧ ∃ out, (assignMapFromStruct .v1 {} (2 + 1)
        (.vmap (.viface none) (some [])) "T"
        (.vstruct [{ name := "x", exported := false }] [.vint 5]) "S").target
          = .vmap (.viface none) (some out)
      ∧ alookup out "x" = none := by
  refine ⟨rfl, ?_, ?_, ?_⟩
  · exact claim10_unexported_fields_invisible.2.1 .v1 {}
      (fun _ t _ _ _ => ⟨t, none, emptyMeta⟩) 3
      [{ name := "x", exported := false }] [.vint 5] "T" "S"
      [("x", .vint 9)] 0 { name := "x", exported := false } rfl rfl
  · exact claim10_unexported_fields_invisible.2.2.1 .v1 {}
      (fun _ t _ _ _ => ⟨t, none, emptyMeta⟩) 3
      [{ name := "x", exported := false }] [.vint 5] "T" "S"
      (.vstruct [{ name := "x", exported := false }] [.vint 7]) 0
      { name := "x", exported := false } rfl rfl
  · refine claim10_unexported_fields_invisible.2.2.2 .v1 {} 2 (.viface none) [] "T" "S" "x"
      [{ name := "x", exported := false }] [.vint 5] ?_ rfl
    intro e he
    have h0 : (flattenStruct {} false (2 + 1)
        (GoVal.vstruct [{ name := "x", exported := false }] [.vint 5])).2
        = [] := rfl
    rw [h0] at he
    exact absurd he (List.not_mem_nil e)

end ObjectSpec

namespace ObjectSpec

/-- **C4.** Flattening a record: an anonymous embedded record (directly,
or via a nil pointer-to-record that gets initialized in place) is not
itself an entry — its fields are promoted to the parent level; a promoted
field whose declared name collides with an already-captured field is
dropped silently (the earlier, shallower field wins); and an `omitempty`
field whose current value is the zero value is excluded entirely.  Shown
exactly on a two-level shape, parametric in the field values. -/
theorem claim4_embedded_flattening (a b a2 : GoVal) :
    flattenStruct {} true 2
        (.vstruct [{ name := "Va" }, { name := "Emb", anonymous := true },
                   { name := "Vc", tag := ["", "omitempty"] }]
          [a, .vstruct [{ name := "Vb" }, { name := "Va" }] [b, a2], .vint 0])
      = (.vstruct [{ name := "Va" }, { name := "Emb", anonymous := true },
                   { name := "Vc", tag := ["", "omitempty"] }]
          [a, .vstruct [{ name := "Vb" }, { name := "Va" }] [b, a2], .vint 0],
         [("Va", { displayName := "Va", actualName := "va", omitempty := false,
                   decl := { name := "Va" }, loc := .inRoot [.fld 0] }),
          ("Vb", { displayName := "Vb", actualName := "vb", omitempty := false,
                   decl := { name := "Vb" }, loc := .inRoot [.fld 1, .fld 0] })])
    ∧ flattenStruct {} true 2
        (.vstruct [{ name := "Va" }, { name := "Emb", anonymous := true }]
          [a, .vptr (.vstruct [{ name := "Vb" }, { name := "Va" }]
              [.vint 0, .vstring ""]) none])
      = (.vstruct [{ name := "Va" }, { name := "Emb", anonymous := true }]
          [a, .vptr (.vstruct [{ name := "Vb" }, { name := "Va" }]
              [.vint 0, .vstring ""])
            (some (.vstruct [{ name := "Vb" }, { name := "Va" }]
              [.vint 0, .vstring ""]))],
         [("Va", { displayName := "Va", actualName := "va", omitempty := false,
                   decl := { name := "Va" }, loc := .inRoot [.fld 0] }),
          ("Vb", { displayName := "Vb", actualName := "vb", omitempty := false,
                   decl := { name := "Vb" },
                   loc := .inRoot [.fld 1, .deref, .fld 0] })]) := by
  constructor
  · simp [flattenStruct, flattenLoop, flattenFields, resolveEmbedded, readLoc,
      getPath, setPath, parseTag, toLowerCamel, isStructProto, childLoc, isZeroVal]
  · simp [flattenStruct, flattenLoop, flattenFields, resolveEmbedded, readLoc,
      getPath, setPath, parseTag, toLowerCamel, isStructProto, childLoc, isZeroVal]

end ObjectSpec

namespace ObjectSpec

/-- **C1 (amended).** An absent source (`nil`, or a typed nil pointer) is a
success no-op in both variants, and in variant 1 this extends to a typed
nil pointer wrapped in an interface; decoding a mapping that lacks the key
of an already-set target field keeps that field's prior value.  (Variant 2
does not unwrap the interface before the typed-nil check, so an
interface-wrapped typed nil reaches the shape handlers there — see the
counterexample.) -/
theorem claim1_absent_source_never_erases :
    (∀ (impl : Impl) (fuel : Nat) (cfg : AssignConfig) (t : GoVal) (tk sk : String),
        (assign impl fuel cfg t tk .vnil sk).target = t
        ∧ (assign impl fuel cfg t tk .vnil sk).err = none)
    ∧ (∀ (impl : Impl) (fuel : Nat) (cfg : AssignConfig) (t : GoVal) (tk sk : String)
        (z : GoVal),
        (assign impl fuel cfg t tk (.vptr z none) sk).target = t
        ∧ (assign impl fuel cfg t tk (.vptr z none) sk).err = none)
    ∧ (∀ (fuel : Nat) (cfg : AssignConfig) (t : GoVal) (tk sk : String) (z : GoVal),
        (assign .v1 fuel cfg t tk (.viface (some (.vptr z none))) sk).target = t
        ∧ (assign .v1 fuel cfg t tk (.viface (some (.vptr z none))) sk).err = none)
    ∧ (∀ impl : Impl,
        (assign impl 3 {} (.vstruct [{ name := "Va" }] [.vint 5]) ""
            (.vmap (.viface none) (some [("other", .vint 9)])) "").target
          = .vstruct [{ name := "Va" }] [.vint 5]
        ∧ (assign impl 3 {} (.vstruct [{ name := "Va" }] [.vint 5]) ""
            (.vmap (.viface none) (some [("other", .vint 9)])) "").err = none) := by
  refine ⟨?_, ?_, ?_, ?_⟩
  · intro impl fuel cfg t tk sk
    unfold assign
    cases impl <;> simp [unwrapIface] <;> split <;> simp
  · intro impl fuel cfg t tk sk z
    unfold assign
    cases impl <;> simp [unwrapIface] <;> split <;> simp
  · intro fuel cfg t tk sk z
    unfold assign
    simp [unwrapIface]
    split <;> simp
  · intro impl
    cases impl <;> exact ⟨rfl, rfl⟩

/-- **C1, counterexample to the original claim.** In variant 2 a typed nil
pointer wrapped in an interface is not treated as absent: the interface is
only unwrapped after the typed-nil check, so the nil pointer reaches the
struct handler and the step returns a conversion error instead of
success. -/
theorem claim1_counterexample :
    (assign .v2 2 {} (.vstruct [{ name := "Va" }] [.vint 5]) "T"
        (.viface (some (.vptr (.vint 0) none))) "S").err
      = some (.msg "'T' expected a map, got 'invalid'")
    ∧ (assign .v2 2 {} (.vstruct [{ name := "Va" }] [.vint 5]) "T"
        (.viface (some (.vptr (.vint 0) none))) "S").target
      = .vstruct [{ name := "Va" }] [.vint 5] :=
  ⟨rfl, rfl⟩

end ObjectSpec

namespace ObjectSpec

/-- **C3.** Negative signed or floating sources into an unsigned target:
strict mode fails with the overflow error, weak mode wraps two's-complement
(`-1` becomes `2^64 - 1`). -/
theorem claim3_negative_to_unsigned :
    ∀ (impl : Impl) (n : Nat) (cfg : AssignConfig) (u : Nat) (tk sk : String),
      cfg.SkipKeys = [] →
      (∀ i : Int, i < 0 →
        (cfg.WeaklyTypedInput = false →
          (assign impl (n + 1) cfg (.vuint u) tk (.vint i) sk).err
              = some (.msg ("cannot parse '" ++ tk ++ "', " ++ toString i
                ++ " overflows uint"))
            ∧ (assign impl (n + 1) cfg (.vuint u) tk (.vint i) sk).target = .vuint u)
        ∧ (cfg.WeaklyTypedInput = true →
          (assign impl (n + 1) cfg (.vuint u) tk (.vint i) sk).err = none
            ∧ (assign impl (n + 1) cfg (.vuint u) tk (.vint i) sk).target
              = .vuint (wrapToUint64 i)))
      ∧ (∀ f : Int, f < 0 →
        (cfg.WeaklyTypedInput = false →
          (assign impl (n + 1) cfg (.vuint u) tk (.vfloat f) sk).err
              = some (.msg ("cannot parse '" ++ tk ++ "', " ++ toString f
                ++ " overflows uint"))
            ∧ (assign impl (n + 1) cfg (.vuint u) tk (.vfloat f) sk).target = .vuint u)
        ∧ (cfg.WeaklyTypedInput = true →
          (assign impl (n + 1) cfg (.vuint u) tk (.vfloat f) sk).err = none
            ∧ (assign impl (n + 1) cfg (.vuint u) tk (.vfloat f) sk).target
              = .vuint (wrapToUint64 f))) := by
  intro impl n cfg u tk sk hsk
  constructor
  · intro i hi
    constructor
    · intro hw
      unfold assign
      rw [shouldSkipKey_nil impl cfg tk sk hsk]
      cases impl <;>
        simp [unwrapIface, deepEqual_vuint_vint, keysPostlude_err, keysPostlude_target,
          assignDispatch, assignUint, indirect, hw, hi, hi.not_le]
    · intro hw
      unfold assign
      rw [shouldSkipKey_nil impl cfg tk sk hsk]
      cases impl <;>
        simp [unwrapIface, deepEqual_vuint_vint, keysPostlude_err, keysPostlude_target,
          assignDispatch, assignUint, indirect, hw]
  · intro f hf
    constructor
    · intro hw
      unfold assign
      rw [shouldSkipKey_nil impl cfg tk sk hsk]
      cases impl <;>
        simp [unwrapIface, deepEqual_vuint_vfloat, keysPostlude_err, keysPostlude_target,
          assignDispatch, assignUint, indirect, hw, hf, hf.not_le]
    · intro hw
      unfold assign
      rw [shouldSkipKey_nil impl cfg tk sk hsk]
      cases impl <;>
        simp [unwrapIface, deepEqual_vuint_vfloat, keysPostlude_err, keysPostlude_target,
          assignDispatch, assignUint, indirect, hw]

/-- Witness for C3: `-1` into a `uint` fails strictly and wraps to
`2^64 - 1` weakly (both source kinds). -/
theorem claim3_negative_to_unsigned_witness :
    ((assign .v1 1 {} (.vuint 3) "T" (.vint (-1)) "S").err
        = some (.msg "cannot parse 'T', -1 overflows uint")
      ∧ (assign .v1 1 {} (.vuint 3) "T" (.vint (-1)) "S").target = .vuint 3)
    ∧ ((assign .v1 1 { WeaklyTypedInput := true } (.vuint 3) "T" (.vint (-1)) "S").err
        = none
      ∧ (assign .v1 1 { WeaklyTypedInput := true } (.vuint 3) "T" (.vint (-1)) "S").target
        = .vuint (2 ^ 64 - 1))
    ∧ ((assign .v1 1 {} (.vuint 3) "T" (.vfloat (-1)) "S").err
        = some (.msg "cannot parse 'T', -1 overflows uint")
      ∧ (assign .v1 1 {} (.vuint 3) "T" (.vfloat (-1)) "S").target = .vuint 3) := by
  refine ⟨?_, ?_, ?_⟩
  · exact ((claim3_negative_to_unsigned .v1 0 {} 3 "T" "S" rfl).1 (-1) (by decide)).1 rfl
  · have h := ((claim3_negative_to_unsigned .v1 0 { WeaklyTypedInput := true } 3 "T" "S"
      rfl).1 (-1) (by decide)).2 rfl
    refine ⟨h.1, h.2.trans ?_⟩
    have : wrapToUint64 (-1) = 2 ^ 64 - 1 := by decide
    rw [this]
  · exact ((claim3_negative_to_unsigned .v1 0 {} 3 "T" "S" rfl).2 (-1) (by decide)).1 rfl

end ObjectSpec

namespace ObjectSpec

/-- **C8.** `Assign` rejects a non-pointer target and a nil pointer target
with an immediate error, leaving the target untouched; a non-nil pointer
target proceeds to the recursive assignment on the dereferenced slot with
empty paths. -/
theorem claim8_assign_target_validation :
    ∀ (impl : Impl) (fuel : Nat) (cfg : AssignConfig) (s : GoVal),
      (∀ t : GoVal, (∀ z po, t ≠ .vptr z po) →
        AssignTop impl fuel cfg t s
          = ⟨t, some (.msg "target must be a pointer"), emptyMeta⟩)
      ∧ (∀ z : GoVal,
        AssignTop impl fuel cfg (.vptr z none) s
          = ⟨.vptr z none, some (.msg "target must be addressable (a pointer)"),
             emptyMeta⟩)
      ∧ (∀ z v : GoVal,
        AssignTop impl fuel cfg (.vptr z (some v)) s
          = ⟨.vptr z (some (assign impl fuel cfg v "" s "").target),
             (assign impl fuel cfg v "" s "").err,
             (assign impl fuel cfg v "" s "").meta⟩) := by
  intro impl fuel cfg s
  refine ⟨?_, fun z => rfl, fun z v => rfl⟩
  intro t ht
  cases t with
  | vptr z po => exact absurd rfl (ht z po)
  | vnil => rfl
  | vbool b => rfl
  | vint i => rfl
  | vuint u => rfl
  | vfloat f => rfl
  | vstring s => rfl
  | vstruct d vs => rfl
  | vmap z es => rfl
  | vslice z xs => rfl
  | varray z xs => rfl
  | viface w => rfl
  | vfunc sig f => rfl

/-- Witness for C8 at an integer (non-pointer) target. -/
theorem claim8_assign_target_validation_witness :
    AssignTop .v1 1 {} (.vint 7) (.vint 9)
      = ⟨.vint 7, some (.msg "target must be a pointer"), emptyMeta⟩ :=
  (claim8_assign_target_validation .v1 1 {} (.vint 9)).1 (.vint 7)
    (fun _ _ h => GoVal.noConfusion h)

end ObjectSpec

namespace ObjectSpec

/-- **C9.** Slice targets from sequence sources: a nil source slice is a
success no-op; otherwise (for any prior target slice — nil, shorter, or
longer) the assigned slice has exactly the source's length, so a shorter
source shrinks the target and leaves no stale trailing elements.  Array
sources behave the same. -/
theorem claim9_slice_resize :
    ∀ (impl : Impl) (n : Nat) (cfg : AssignConfig) (z : GoVal)
      (xs : Option (List GoVal)) (zs : GoVal) (tk sk : String),
      ((assign impl (n + 1) cfg (.vslice z xs) tk (.vslice zs none) sk).target
          = .vslice z xs
        ∧ (assign impl (n + 1) cfg (.vslice z xs) tk (.vslice zs none) sk).err = none)
      ∧ (cfg.SkipKeys = [] → cfg.SkipSameValues = false →
        ∀ ses : List GoVal,
          (∃ out,
            (assign impl (n + 1) cfg (.vslice z xs) tk (.vslice zs (some ses)) sk).target
                = .vslice z (some out)
            ∧ out.length = ses.length)
          ∧ (∃ out,
            (assign impl (n + 1) cfg (.vslice z xs) tk (.varray zs ses) sk).target
                = .vslice z (some out)
            ∧ out.length = ses.length)) := by
  intro impl n cfg z xs zs tk sk
  refine ⟨assign_slice_nil_noop impl n cfg z xs zs tk sk, ?_⟩
  intro hsk hss ses
  exact ⟨assign_slice_some_shape impl n cfg z xs zs ses tk sk hsk hss,
    assign_slice_array_shape impl n cfg z xs zs ses tk sk hsk hss⟩

/-- Witness for C9: a three-element target shrinks to the one-element
source's length. -/
theorem claim9_slice_resize_witness :
    ((assign .v1 2 {} (.vslice (.vint 0) (some [.vint 1, .vint 2, .vint 3])) "T"
        (.vslice (.vint 0) none) "S").target
        = .vslice (.vint 0) (some [.vint 1, .vint 2, .vint 3])
      ∧ (assign .v1 2 {} (.vslice (.vint 0) (some [.vint 1, .vint 2, .vint 3])) "T"
        (.vslice (.vint 0) none) "S").err = none)
    ∧ ((∃ out,
        (assign .v1 2 {} (.vslice (.vint 0) (some [.vint 1, .vint 2, .vint 3])) "T"
            (.vslice (.vint 0) (some [.vint 9])) "S").target
            = .vslice (.vint 0) (some out)
        ∧ out.length = [GoVal.vint 9].length)
      ∧ (∃ out,
        (assign .v1 2 {} (.vslice (.vint 0) (some [.vint 1, .vint 2, .vint 3])) "T"
            (.varray (.vint 0) [.vint 9]) "S").target
            = .vslice (.vint 0) (some out)
        ∧ out.length = [GoVal.vint 9].length)) :=
  ⟨(claim9_slice_resize .v1 1 {} (.vint 0) (some [.vint 1, .vint 2, .vint 3])
      (.vint 0) "T" "S").1,
   (claim9_slice_resize .v1 1 {} (.vint 0) (some [.vint 1, .vint 2, .vint 3])
      (.vint 0) "T" "S").2 rfl rfl [.vint 9]⟩

end ObjectSpec

namespace ObjectSpec

/-- **C7 (amended).** A skip-path match (both paths non-empty) is a
success no-op in both variants; in variant 1 (`src/assign.go`) it records
the source path in `Metadata.Unused` and the target path in
`Metadata.Unset`, while in variant 2 (`src/unnamed/part_000`) it returns
before recording anything. -/
theorem claim7_skip_keys :
    ∀ (fuel : Nat) (cfg : AssignConfig) (t s : GoVal) (tk sk : String),
      tk ≠ "" → sk ≠ "" →
      (tk ∈ cfg.SkipKeys ∨ sk ∈ cfg.SkipKeys) → cfg.hasMetadata = true →
      assign .v1 fuel cfg t tk s sk = ⟨t, none, ⟨[], [sk], [tk]⟩⟩
      ∧ assign .v2 fuel cfg t tk s sk = ⟨t, none, emptyMeta⟩ := by
  intro fuel cfg t s tk sk htk hsk hmem hmd
  constructor
  · unfold assign
    rw [shouldSkipKey_hit .v1 cfg tk sk htk hsk hmem]
    simp [addMetaUnset, addMetaUnused, emptyMeta, hmd, htk, hsk]
  · unfold assign
    rw [shouldSkipKey_hit .v2 cfg tk sk htk hsk hmem]
    simp

/-- Witness for C7 with skip key `T`. -/
theorem claim7_skip_keys_witness :
    assign .v1 1 { hasMetadata := true, SkipKeys := ["T"] } (.vint 1) "T" (.vint 2) "S"
        = ⟨.vint 1, none, ⟨[], ["S"], ["T"]⟩⟩
    ∧ assign .v2 1 { hasMetadata := true, SkipKeys := ["T"] } (.vint 1) "T" (.vint 2) "S"
        = ⟨.vint 1, none, emptyMeta⟩ :=
  claim7_skip_keys 1 { hasMetadata := true, SkipKeys := ["T"] } (.vint 1) (.vint 2)
    "T" "S" (by decide) (by decide) (Or.inl (by decide)) rfl

/-- **C7, counterexample to the original claim.** Variant 2's skip path
records nothing: with a metadata sink configured and skip key `T`, the
returned metadata delta has empty `Unused` and `Unset` lists. -/
theorem claim7_counterexample :
    (assign .v2 1 { hasMetadata := true, SkipKeys := ["T"] }
        (.vint 1) "T" (.vint 2) "S").meta.unused = []
    ∧ (assign .v2 1 { hasMetadata := true, SkipKeys := ["T"] }
        (.vint 1) "T" (.vint 2) "S").meta.unset = [] :=
  ⟨rfl, rfl⟩

end ObjectSpec

namespace ObjectSpec

/-- **C6 (amended).** The Keys postlude: variant 2 appends the target path
to `Metadata.Keys` only when the dispatch flag is set and the handler
returned no error; variant 1 appends whenever the flag is set, even on a
handler error.  The pointer-target special flag is the reverse of the
original claim: assigning nil to a pointer target sets the flag (the path
IS recorded), while the pointer-fill path clears it so the parent does not
add a second entry for the path the recursive child call just recorded. -/
theorem claim6_keys_recording :
    (∀ (cfg : AssignConfig) (tk : String) (d : Bool × ARes) (e : AErr),
        d.2.err = some e → keysPostlude .v2 cfg tk d = d.2)
    ∧ (∀ (cfg : AssignConfig) (tk : String) (d : Bool × ARes),
        d.1 = true → cfg.hasMetadata = true → tk ≠ "" →
        (keysPostlude .v1 cfg tk d).meta.keys = d.2.meta.keys ++ [tk])
    ∧ (∀ (impl : Impl) (n : Nat) (cfg : AssignConfig) (z : GoVal)
        (po : Option GoVal) (zs : GoVal) (tk sk : String),
        cfg.SkipKeys = [] → cfg.SkipSameValues = false →
        cfg.hasMetadata = true → tk ≠ "" →
        (assign impl (n + 1) cfg (.vptr z po) tk (.vmap zs none) sk).err = none
        ∧ (assign impl (n + 1) cfg (.vptr z po) tk (.vmap zs none) sk).target
            = .vptr z none
        ∧ (assign impl (n + 1) cfg (.vptr z po) tk (.vmap zs none) sk).meta.keys = [tk])
    ∧ (∀ impl : Impl,
        (assign impl 2 { hasMetadata := true }
            (.vptr (.vint 0) (some (.vint 1))) "T" (.vint 9) "S").err = none
        ∧ (assign impl 2 { hasMetadata := true }
            (.vptr (.vint 0) (some (.vint 1))) "T" (.vint 9) "S").meta.keys = ["T"]) := by
  refine ⟨?_, ?_, ?_, ?_⟩
  · intro cfg tk d e h
    unfold keysPostlude
    simp [h]
  · intro cfg tk d hflag hmd htk
    unfold keysPostlude
    simp [hflag, addMetaKey, hmd, htk]
  · intro impl n cfg z po zs tk sk hsk hss hmd htk
    unfold assign
    rw [shouldSkipKey_nil impl cfg tk sk hsk]
    cases impl <;> cases po <;>
      simp [unwrapIface, hss, assignDispatch, assignPtr, indirect, keysPostlude,
        addMetaKey, hmd, htk, emptyMeta]
  · intro impl
    cases impl <;> exact ⟨rfl, rfl⟩

/-- Witness for C6 at concrete inputs. -/
theorem claim6_keys_recording_witness :
    keysPostlude .v2 { hasMetadata := true } "T"
        (true, ⟨.vint 0, some (.msg "boom"), emptyMeta⟩)
      = ⟨.vint 0, some (.msg "boom"), emptyMeta⟩
    ∧ (keysPostlude .v1 { hasMetadata := true } "T"
        (true, ⟨.vint 0, some (.msg "boom"), emptyMeta⟩)).meta.keys
      = emptyMeta.keys ++ ["T"]
    ∧ ((assign .v1 2 { hasMetadata := true }
        (.vptr (.vint 0) (some (.vint 5))) "T" (.vmap (.viface none) none) "S").err = none
      ∧ (assign .v1 2 { hasMetadata := true }
        (.vptr (.vint 0) (some (.vint 5))) "T" (.vmap (.viface none) none) "S").target
          = .vptr (.vint 0) none
      ∧ (assign .v1 2 { hasMetadata := true }
        (.vptr (.vint 0) (some (.vint 5))) "T" (.vmap (.viface none) none) "S").meta.keys
          = ["T"]) :=
  ⟨claim6_keys_recording.1 { hasMetadata := true } "T"
      (true, ⟨.vint 0, some (.msg "boom"), emptyMeta⟩) (.msg "boom") rfl,
   claim6_keys_recording.2.1 { hasMetadata := true } "T"
      (true, ⟨.vint 0, some (.msg "boom"), emptyMeta⟩) rfl rfl (by decide),
   claim6_keys_recording.2.2.1 .v1 1 { hasMetadata := true } (.vint 0)
      (some (.vint 5)) (.viface none) "T" "S" rfl rfl rfl (by decide)⟩

/-- **C6, counterexample to the original claim.** (i) A pointer-target
nil-assignment DOES append the target path to `Metadata.Keys`; (ii) in
variant 1 a step whose handler returns a conversion error still appends
its target path. -/
theorem claim6_counterexample :
    ((assign .v1 2 { hasMetadata := true }
        (.vptr (.vint 0) (some (.vint 5))) "T" (.vmap (.viface none) none) "S").err = none
      ∧ (assign .v1 2 { hasMetadata := true }
        (.vptr (.vint 0) (some (.vint 5))) "T" (.vmap (.viface none) none) "S").meta.keys
        = ["T"])
    ∧ ((assign .v1 1 { hasMetadata := true }
        (.vint 0) "T" (.vstruct [] []) "S").err
        = some (.msg "'T' expected type 'int', got unconvertible type 'struct'")
      ∧ (assign .v1 1 { hasMetadata := true }
        (.vint 0) "T" (.vstruct [] []) "S").meta.keys = ["T"]) :=
  ⟨⟨rfl, rfl⟩, ⟨rfl, rfl⟩⟩

end ObjectSpec

namespace ObjectSpec

/-- **C5.** Child conversion failures do not abort the parent traversal:
later children are still processed and written, and the parent returns the
aggregate error holding the ordered per-path failure messages exactly when
some child failed.  Shown for the collector itself (`errFromList`) and for
record←mapping, sequence, and mapping←mapping parents in both variants. -/
theorem claim5_errors_accumulate :
    (∀ l : List String, errFromList l = if l.isEmpty then none else some (.agg l))
    ∧ (∀ impl : Impl,
        ((assign impl 3 {} (.vstruct [{ name := "Vint" }, { name := "Vstring" }]
            [.vint 0, .vstring ""]) ""
            (.vmap (.viface none)
              (some [("vint", .vstring "x"), ("vstring", .vstring "ok")])) "").target
          = .vstruct [{ name := "Vint" }, { name := "Vstring" }]
              [.vint 0, .vstring "ok"]
        ∧ (assign impl 3 {} (.vstruct [{ name := "Vint" }, { name := "Vstring" }]
            [.vint 0, .vstring ""]) ""
            (.vmap (.viface none)
              (some [("vint", .vstring "x"), ("vstring", .vstring "ok")])) "").err
          = some (.agg ["'Vint' expected type 'int', got unconvertible type 'string'"])))
    ∧ (∀ impl : Impl,
        ((assign impl 3 {} (.vslice (.vint 0) none) "T"
            (.vslice (.viface none) (some [.vstring "x", .vint 5])) "S").target
          = .vslice (.vint 0) (some [.vint 0, .vint 5])
        ∧ (assign impl 3 {} (.vslice (.vint 0) none) "T"
            (.vslice (.viface none) (some [.vstring "x", .vint 5])) "S").err
          = some (.agg ["'T[0]' expected type 'int', got unconvertible type 'string'"])))
    ∧ (∀ impl : Impl,
        ((assign impl 3 {} (.vmap (.vint 0) (some [])) "T"
            (.vmap (.viface none) (some [("a", .vstring "x"), ("b", .vint 7)])) "S").target
          = .vmap (.vint 0) (some [("b", .vint 7)])
        ∧ (assign impl 3 {} (.vmap (.vint 0) (some [])) "T"
            (.vmap (.viface none) (some [("a", .vstring "x"), ("b", .vint 7)])) "S").err
          = some (.agg ["'T[a]' expected type 'int', got unconvertible type 'string'"])))
    ∧ (∀ impl : Impl,
        (assign impl 3 {} (.vstruct [{ name := "Vint" }, { name := "Vstring" }]
            [.vint 0, .vstring ""]) ""
            (.vmap (.viface none)
              (some [("vint", .vint 4), ("vstring", .vstring "ok")])) "").err = none) := by
  refine ⟨?_, ?_, ?_, ?_, ?_⟩
  · intro l
    unfold errFromList
    rfl
  · intro impl
    cases impl <;> exact ⟨rfl, rfl⟩
  · intro impl
    cases impl <;> exact ⟨rfl, rfl⟩
  · intro impl
    cases impl <;> exact ⟨rfl, rfl⟩
  · intro impl
    cases impl <;> rfl

end ObjectSpec

namespace ObjectSpec

/-- **C2 (amended).** Mapping←mapping: a nil source is a success no-op; a
present-but-empty source replaces the target with a fresh empty map of its
declared types; otherwise the source is merged in — target keys missing
from the source are retained, and a source entry overwrites or adds its
key exactly when that entry's own conversion succeeds (a failing entry
leaves the key's previous binding, or absence, in place). -/
theorem claim2_map_merge :
    (∀ (impl : Impl) (n : Nat) (cfg : AssignConfig) (z : GoVal)
        (te : Option (List (String × GoVal))) (zs : GoVal) (tk sk : String),
        (assign impl (n + 1) cfg (.vmap z te) tk (.vmap zs none) sk).target = .vmap z te
        ∧ (assign impl (n + 1) cfg (.vmap z te) tk (.vmap zs none) sk).err = none)
    ∧ (∀ (impl : Impl) (n : Nat) (cfg : AssignConfig) (z : GoVal)
        (te : Option (List (String × GoVal))) (zs : GoVal) (tk sk : String),
        cfg.SkipKeys = [] → cfg.SkipSameValues = false →
        (assign impl (n + 1) cfg (.vmap z te) tk (.vmap zs (some [])) sk).target
          = .vmap z (some [])
        ∧ (assign impl (n + 1) cfg (.vmap z te) tk (.vmap zs (some [])) sk).err = none)
    ∧ (∀ (impl : Impl) (n : Nat) (cfg : AssignConfig) (z : GoVal)
        (te : Option (List (String × GoVal))) (zs : GoVal)
        (ses : List (String × GoVal)) (tk sk k : String),
        cfg.SkipKeys = [] → cfg.SkipSameValues = false →
        ses ≠ [] → (∀ e ∈ ses, e.1 ≠ k) →
        alookup (mapEntriesOf
            (assign impl (n + 1) cfg (.vmap z te) tk (.vmap zs (some ses)) sk).target) k
          = alookup (te.getD []) k)
    ∧ (∀ (impl : Impl) (n : Nat) (cfg : AssignConfig) (z : GoVal)
        (te : Option (List (String × GoVal))) (zs : GoVal)
        (ses : List (String × GoVal)) (tk sk k : String) (v : GoVal),
        cfg.SkipKeys = [] → cfg.SkipSameValues = false →
        (ses.map Prod.fst).Nodup → (k, v) ∈ ses →
        ((assign impl n cfg z (newChild tk .map k) v (newChild sk .map k)).err = none →
          alookup (mapEntriesOf
              (assign impl (n + 1) cfg (.vmap z te) tk (.vmap zs (some ses)) sk).target) k
            = some (assign impl n cfg z (newChild tk .map k) v (newChild sk .map k)).target)
        ∧ (∀ e, (assign impl n cfg z (newChild tk .map k) v
              (newChild sk .map k)).err = some e →
          alookup (mapEntriesOf
              (assign impl (n + 1) cfg (.vmap z te) tk (.vmap zs (some ses)) sk).target) k
            = alookup (te.getD []) k)) :=
  ⟨fun impl n cfg z te zs tk sk => assign_map_nil_noop impl n cfg z te zs tk sk,
   fun impl n cfg z te zs tk sk hsk hss => assign_map_empty impl n cfg z te zs tk sk hsk hss,
   fun impl n cfg z te zs ses tk sk k hsk hss hne hmiss =>
     assign_map_retain impl n cfg z te zs ses tk sk k hsk hss hne hmiss,
   fun impl n cfg z te zs ses tk sk k v hsk hss hnd hmem =>
     assign_map_hit impl n cfg z te zs ses tk sk k v hsk hss hnd hmem⟩

/-- Witness for C2: a `{b ↦ 1}` target merged with `{a ↦ 7}` keeps `b`
and gains `a`; a failing entry (`a ↦ "x"` into an int-valued map) leaves
`a` absent; an empty source empties the map. -/
theorem claim2_map_merge_witness :
    ((assign .v1 2 {} (.vmap (.vint 0) (some [("b", .vint 1)])) "T"
        (.vmap (.viface none) (some [])) "S").target = .vmap (.vint 0) (some [])
      ∧ (assign .v1 2 {} (.vmap (.vint 0) (some [("b", .vint 1)])) "T"
        (.vmap (.viface none) (some [])) "S").err = none)
    ∧ alookup (mapEntriesOf
        (assign .v1 2 {} (.vmap (.vint 0) (some [("b", .vint 1)])) "T"
          (.vmap (.viface none) (some [("a", .vint 7)])) "S").target) "b"
      = alookup [("b", GoVal.vint 1)] "b"
    ∧ alookup (mapEntriesOf
        (assign .v1 2 {} (.vmap (.vint 0) (some [("b", .vint 1)])) "T"
          (.vmap (.viface none) (some [("a", .vint 7)])) "S").target) "a"
      = some (assign .v1 1 {} (.vint 0) (newChild "T" .map "a") (.vint 7)
          (newChild "S" .map "a")).target
    ∧ alookup (mapEntriesOf
        (assign .v1 2 {} (.vmap (.vint 0) (some [("b", .vint 1)])) "T"
          (.vmap (.viface none) (some [("a", .vstring "x")])) "S").target) "a"
      = alookup ((some [("b", GoVal.vint 1)]).getD []) "a" := by
  refine ⟨?_, ?_, ?_, ?_⟩
  · exact claim2_map_merge.2.1 .v1 1 {} (.vint 0) (some [("b", .vint 1)])
      (.viface none) "T" "S" rfl rfl
  · exact claim2_map_merge.2.2.1 .v1 1 {} (.vint 0) (some [("b", .vint 1)])
      (.viface none) [("a", .vint 7)] "T" "S" "b" rfl rfl (by simp)
      (by intro e he; rcases List.mem_singleton.mp he with rfl; decide)
  · exact (claim2_map_merge.2.2.2 .v1 1 {} (.vint 0) (some [("b", .vint 1)])
      (.viface none) [("a", .vint 7)] "T" "S" "a" (.vint 7) rfl rfl (by simp)
      (List.mem_singleton.mpr rfl)).1 rfl
  · exact (claim2_map_merge.2.2.2 .v1 1 {} (.vint 0) (some [("b", .vint 1)])
      (.viface none) [("a", .vstring "x")] "T" "S" "a" (.vstring "x") rfl rfl (by simp)
      (List.mem_singleton.mpr rfl)).2
      (.msg "'T[a]' expected type 'int', got unconvertible type 'string'") rfl

/-- **C2, counterexample to the original claim.** Not every source entry
overwrites or adds its key: an entry whose value fails to convert to the
map's value type is skipped, so the key stays absent from the target. -/
theorem claim2_counterexample :
    alookup (mapEntriesOf
        (assign .v1 2 {} (.vmap (.vint 0) (some [])) "T"
          (.vmap (.viface none) (some [("a", .vstring "x")])) "S").target) "a" = none
    ∧ (assign .v1 2 {} (.vmap (.vint 0) (some [])) "T"
          (.vmap (.viface none) (some [("a", .vstring "x")])) "S").err
      = some (.agg ["'T[a]' expected type 'int', got unconvertible type 'string'"]) :=
  ⟨rfl, rfl⟩

end ObjectSpec
